import Mathlib

/-!
# TeleportToMouse: teleport the selection to the point under the mouse

A shallow embedding of `TeleportToMouse.cpp` (the editor plugin module
`FTeleportToMouseModule` and `FSplineTeleportHandler`).

Conventions of the embedding

* Coordinates are rationals, and the arithmetic on them is a parameter of
  every procedure that computes: `Arithmetic.double` rounds each operation to
  the nearest binary64 value, ties to even, as the source's `double` does
  (overflow is not modelled); `Arithmetic.rational` is exact arithmetic. What
  is proved for every arithmetic holds for the source's.
* Engine objects (`AActor*`, `AGroupActor*`, components) are natural-number
  identities. A group actor is an actor, as in the engine's class hierarchy,
  so actors and group roots share one identity space and one location map.
* The editor is an explicit state `World`, threaded through every procedure.
  A pointer the source tests for null is a `Bool` or `Option` field tested at
  the same place; a pointer the source dereferences without a test is taken
  to be live there. What is read through a pointer (the grid size through
  `GEditor`, say) means something only while that pointer is live.
* Groups are known through the two engine lookups the source calls:
  `GetRootForActor` (the group root of an actor) and `GetGroupActors` (the
  members of a group). Both are parameters of the state; nothing is assumed
  about how they relate.
* `TSet` is an insertion-ordered list without repetitions; `Add` keeps the
  first occurrence.
* `SetActorLocation` is a point update of the location map: attachment
  hierarchies of the engine are outside the model.
-/

namespace TeleportToMouse

/-! ## Vectors -/

/-- FVector of the engine: three coordinates. -/
@[ext] structure FVector where
  X : ℚ
  Y : ℚ
  Z : ℚ
deriving DecidableEq

namespace FVector

/-- FVector::ZeroVector. -/
def ZeroVector : FVector := ⟨0, 0, 0⟩

end FVector

/-! ## Arithmetic -/

/-- The four operations on coordinates, as the machine computes them. -/
structure Arithmetic where
  add : ℚ → ℚ → ℚ
  sub : ℚ → ℚ → ℚ
  mul : ℚ → ℚ → ℚ
  div : ℚ → ℚ → ℚ

/-- Exact arithmetic on the rationals. -/
def Arithmetic.rational : Arithmetic :=
  ⟨fun a b => a + b, fun a b => a - b, fun a b => a * b, fun a b => a / b⟩

/-- Rounding of a rational to the nearest integer, a tie going to the even one. -/
def roundHalfEven (q : ℚ) : ℤ :=
  if q - ⌊q⌋ < 1 / 2 then ⌊q⌋
  else if 1 / 2 < q - ⌊q⌋ then ⌊q⌋ + 1
  else if ⌊q⌋ % 2 = 0 then ⌊q⌋ else ⌊q⌋ + 1

/-- Rounding of a rational to the nearest binary64 value, ties to even: 53
significant bits, the exponent of the leading bit not below -1022 (below it
the spacing stays that of the subnormal numbers). Overflow is not modelled. -/
def roundDouble (x : ℚ) : ℚ :=
  if x = 0 then 0
  else
    let e : ℤ := max (Int.log 2 |x|) (-1022)
    (roundHalfEven (x / 2 ^ (e - 52)) : ℚ) * 2 ^ (e - 52)

/-- Arithmetic of the source's `double`: every operation returns the exact
result rounded to binary64. -/
def Arithmetic.double : Arithmetic :=
  ⟨fun a b => roundDouble (a + b), fun a b => roundDouble (a - b),
   fun a b => roundDouble (a * b), fun a b => roundDouble (a / b)⟩

namespace FVector

/-- Sum of two vectors (operator+ of FVector), coordinate by coordinate. -/
def add (A : Arithmetic) (a b : FVector) : FVector :=
  ⟨A.add a.X b.X, A.add a.Y b.Y, A.add a.Z b.Z⟩

/-- Difference of two vectors (operator- of FVector), coordinate by coordinate. -/
def sub (A : Arithmetic) (a b : FVector) : FVector :=
  ⟨A.sub a.X b.X, A.sub a.Y b.Y, A.sub a.Z b.Z⟩

/-- Division of a vector by a scalar (operator/= of FVector), coordinate by
coordinate. -/
def divScalar (A : Arithmetic) (a : FVector) (s : ℚ) : FVector :=
  ⟨A.div a.X s, A.div a.Y s, A.div a.Z s⟩

end FVector

/-! ## Editor state -/

/-- FLevelEditorViewportClient, as far as the plugin looks at it. -/
structure FLevelEditorViewportClient where
  /-- Whether `ViewportClient->Viewport` is non-null. -/
  Viewport : Bool
  /-- Whether `CalcSceneView` returns a view. -/
  SceneView : Bool
  /-- Result of `GetWidgetLocation()`: the pivot of the transform widget. -/
  WidgetLocation : FVector

/-- FSplineComponentVisualizer: the keys returned by `GetSelectedKeys()`. -/
structure FSplineComponentVisualizer where
  SelectedKeys : List ℤ

/-- A selected editable component. -/
structure UActorComponent where
  /-- Identity of the component object. -/
  Id : Nat
  /-- Result of `GetClass()`. -/
  Class : Nat
  /-- Whether `Cast<USplineComponent>` succeeds. -/
  IsSpline : Bool

/-- Editor state read and written by the plugin. -/
structure World where
  /-- Whether `GEditor` is non-null. -/
  GEditor : Bool
  /-- Whether `GUnrealEd` is non-null. -/
  GUnrealEd : Bool
  /-- Result of `FLevelEditorActionCallbacks::LocationGridSnap_IsChecked()`. -/
  LocationGridSnap_IsChecked : Bool
  /-- Result of `GEditor->GetGridSize()`. -/
  GridSize : ℚ
  /-- Result of `GEditor->GetPivotLocation()`. -/
  PivotLocation : FVector
  /-- What `UpdatePivotLocationForSelection` computes from the current locations. -/
  PivotForSelection : (Nat → FVector) → FVector
  /-- Objects of `GetSelectedActorIterator()`, in iteration order; `none` is
  an object for which `Cast<AActor>` fails. -/
  SelectedActors : List (Option Nat)
  /-- Result of `AActor::GetActorLocation()`, group actors included. -/
  ActorLocation : Nat → FVector
  /-- Result of `AGroupActor::GetRootForActor`. -/
  RootForActor : Nat → Option Nat
  /-- Result of `AGroupActor::IsLocked()`. -/
  IsLocked : Nat → Bool
  /-- Result of `AGroupActor::GetGroupActors`. -/
  GroupActors : Nat → List Nat
  /-- Number of `FScopedTransaction`s opened so far. -/
  Transactions : Nat
  /-- Actors on which `Modify()` was called, most recent first. -/
  Modified : List Nat
  /-- Actors on which `PostEditMove` was called, most recent first. -/
  PostEditMoved : List Nat
  /-- Actors on which `MarkPackageDirty()` was called, most recent first. -/
  Dirty : List Nat
  /-- Whether `GEditor->GetActiveViewport()` is non-null. -/
  ActiveViewport : Bool
  /-- Result of `GEditor->GetActiveViewport()->GetClient()`. -/
  ViewportClient : Option FLevelEditorViewportClient
  /-- Whether `GetEditorWorldContext().World()` is non-null. -/
  EditorWorld : Bool
  /-- Result of `LineTraceSingleByChannel` along the mouse ray, given the
  ignored actors: the first blocking hit, if any. -/
  LineTraceSingleByChannel : List Nat → Option FVector
  /-- Result of `GEditor->GetSelectedComponents()`; `none` is a null selection. -/
  SelectedComponents : Option (List UActorComponent)
  /-- Result of `GUnrealEd->FindComponentVisualizer`, by component class. -/
  FindComponentVisualizer : Nat → Option FSplineComponentVisualizer
  /-- Result of `GetLocationAtSplinePoint` in world space, by component and key. -/
  SplinePointLocation : Nat → ℤ → FVector
  /-- Components on which `Modify()` was called, most recent first. -/
  ModifiedComponents : List Nat
  /-- Components on which `UpdateSpline()` was called, most recent first. -/
  UpdatedSplines : List Nat
  /-- Number of `Invalidate()` calls on the viewport client. -/
  Invalidated : Nat
  /-- Number of `RedrawLevelEditingViewports()` calls. -/
  Redrawn : Nat
  /-- Number of `NoteSelectionChange()` calls. -/
  SelectionChangeNoted : Nat

/-! ## Grid snap -/

/-- Modelled from the spec: `FMath::RoundToFloat`, an engine function that is
not part of this repository. The spec describes it as rounding to the nearest
integer; the engine documents it as rounding up at one half, the floor of the
argument plus one half. -/
def RoundToFloat (A : Arithmetic) (F : ℚ) : ℚ := (⌊A.add F (1 / 2)⌋ : ℤ)

/-- FTeleportToMouseModule::SnapLocationToGrid. -/
def SnapLocationToGrid (A : Arithmetic) (w : World) (Location : FVector) : FVector :=
  if !w.LocationGridSnap_IsChecked || !w.GEditor then
    Location
  else
    let GridSize := w.GridSize
    if GridSize ≤ 0 then
      Location
    else
      ⟨A.mul (RoundToFloat A (A.div Location.X GridSize)) GridSize,
       A.mul (RoundToFloat A (A.div Location.Y GridSize)) GridSize,
       A.mul (RoundToFloat A (A.div Location.Z GridSize)) GridSize⟩

/-! ## TSet -/

/-- TSet::Add: insert an element unless it is already present. -/
def TSetAdd (s : List Nat) (a : Nat) : List Nat :=
  if a ∈ s then s else s ++ [a]

/-- TSet::Append: add the elements of an array one after the other. -/
def TSetAppend (s : List Nat) (xs : List Nat) : List Nat :=
  xs.foldl TSetAdd s

/-! ## Actor teleport -/

/-- The three sets filled by the first loop of TeleportActors. -/
structure Collected where
  ActorsToMove : List Nat
  LockedGroups : List Nat
  UnlockedGroups : List Nat

/-- Body of the loop over the selected actors (collection of actors and groups). -/
def collectStep (w : World) (c : Collected) (It : Option Nat) : Collected :=
  match It with
  | none => c
  | some Actor =>
    match w.RootForActor Actor with
    | some GroupActor =>
      if w.IsLocked GroupActor then
        { c with
          LockedGroups := TSetAdd c.LockedGroups GroupActor
          ActorsToMove := TSetAppend c.ActorsToMove (w.GroupActors GroupActor) }
      else
        { c with
          UnlockedGroups := TSetAdd c.UnlockedGroups GroupActor
          ActorsToMove := TSetAdd c.ActorsToMove Actor }
    | none =>
      { c with ActorsToMove := TSetAdd c.ActorsToMove Actor }

/-- The loop over the selected actors, from three empty sets. -/
def collect (w : World) : Collected :=
  w.SelectedActors.foldl (collectStep w) ⟨[], [], []⟩

/-- AActor::Modify. -/
def Modify (w : World) (a : Nat) : World :=
  { w with Modified := a :: w.Modified }

/-- AActor::SetActorLocation. -/
def SetActorLocation (w : World) (a : Nat) (NewLocation : FVector) : World :=
  { w with ActorLocation := fun x => if x = a then NewLocation else w.ActorLocation x }

/-- AActor::PostEditMove. -/
def PostEditMove (w : World) (a : Nat) : World :=
  { w with PostEditMoved := a :: w.PostEditMoved }

/-- AActor::MarkPackageDirty. -/
def MarkPackageDirty (w : World) (a : Nat) : World :=
  { w with Dirty := a :: w.Dirty }

/-- Body of the loop that moves the actors; `Index` is the running index into
the offsets recorded before the loop. -/
def moveActorStep (A : Arithmetic) (SnappedLocation : FVector)
    (RelativeOffsets : List FVector) (st : World × Nat) (Actor : Nat) : World × Nat :=
  let w := Modify st.1 Actor
  let w := SetActorLocation w Actor
    (FVector.add A SnappedLocation (RelativeOffsets.getD st.2 FVector.ZeroVector))
  let w := PostEditMove w Actor
  let w := MarkPackageDirty w Actor
  (w, st.2 + 1)

/-- Body of the loop that moves the locked group actors. -/
def moveLockedGroupStep (A : Arithmetic) (SnappedLocation : FVector)
    (GroupOffsets : List FVector) (st : World × Nat) (GroupActor : Nat) : World × Nat :=
  let w := SetActorLocation st.1 GroupActor
    (FVector.add A SnappedLocation (GroupOffsets.getD st.2 FVector.ZeroVector))
  let w := MarkPackageDirty w GroupActor
  (w, st.2 + 1)

/-- Sum of the current locations of the grouped actors, from the zero vector. -/
def sumLocations (A : Arithmetic) (w : World) (GroupedActors : List Nat) : FVector :=
  GroupedActors.foldl (fun CenterLocation GroupedActor =>
    FVector.add A CenterLocation (w.ActorLocation GroupedActor)) FVector.ZeroVector

/-- Body of the loop that recentres the unlocked group actors. -/
def recentreStep (A : Arithmetic) (w : World) (GroupActor : Nat) : World :=
  let GroupedActors := w.GroupActors GroupActor
  if GroupedActors.length > 0 then
    let CenterLocation := sumLocations A w GroupedActors
    let CenterLocation := CenterLocation.divScalar A (GroupedActors.length : ℚ)
    let w := SetActorLocation w GroupActor CenterLocation
    MarkPackageDirty w GroupActor
  else
    w

/-- UUnrealEdEngine::UpdatePivotLocationForSelection. -/
def UpdatePivotLocationForSelection (w : World) : World :=
  { w with PivotLocation := w.PivotForSelection w.ActorLocation }

/-- FTeleportToMouseModule::TeleportActors. -/
def TeleportActors (A : Arithmetic) (w : World) (Location : FVector) : World :=
  let c := collect w
  if c.ActorsToMove.length = 0 then
    w
  else
    let w := { w with Transactions := w.Transactions + 1 }
    let SnappedLocation := SnapLocationToGrid A w Location
    let ReferenceLocation := w.PivotLocation
    let RelativeOffsets := c.ActorsToMove.map (fun Actor =>
      FVector.sub A (w.ActorLocation Actor) ReferenceLocation)
    let GroupOffsets := c.LockedGroups.map (fun GroupActor =>
      FVector.sub A (w.ActorLocation GroupActor) ReferenceLocation)
    let w := c.LockedGroups.foldl Modify w
    let w := c.UnlockedGroups.foldl Modify w
    let w := (c.ActorsToMove.foldl (moveActorStep A SnappedLocation RelativeOffsets) (w, 0)).1
    let w := (c.LockedGroups.foldl (moveLockedGroupStep A SnappedLocation GroupOffsets) (w, 0)).1
    let w := c.UnlockedGroups.foldl (recentreStep A) w
    if w.GUnrealEd then UpdatePivotLocationForSelection w else w

/-! ## Spline-point teleport -/

/-- USplineComponent::Modify. -/
def ModifyComponent (w : World) (SplineComp : Nat) : World :=
  { w with ModifiedComponents := SplineComp :: w.ModifiedComponents }

/-- USplineComponent::GetLocationAtSplinePoint, world space. -/
def GetLocationAtSplinePoint (w : World) (SplineComp : Nat) (Key : ℤ) : FVector :=
  w.SplinePointLocation SplineComp Key

/-- USplineComponent::SetLocationAtSplinePoint, world space. -/
def SetLocationAtSplinePoint (w : World) (SplineComp : Nat) (Key : ℤ)
    (InLocation : FVector) : World :=
  { w with SplinePointLocation := fun c k =>
      if c = SplineComp ∧ k = Key then InLocation else w.SplinePointLocation c k }

/-- USplineComponent::UpdateSpline. -/
def UpdateSpline (w : World) (SplineComp : Nat) : World :=
  { w with UpdatedSplines := SplineComp :: w.UpdatedSplines }

/-- The loop over the selected keys: every point is moved by the offset. -/
def moveSelectedKeys (A : Arithmetic) (w : World) (SplineComp : Nat) (MoveOffset : FVector)
    (SelectedKeys : List ℤ) : World :=
  SelectedKeys.foldl (fun w Key =>
    let CurrentLocation := GetLocationAtSplinePoint w SplineComp Key
    SetLocationAtSplinePoint w SplineComp Key (FVector.add A CurrentLocation MoveOffset)) w

/-- The loop over the selected components: the first spline component whose
visualizer reports a selected key is moved, and the loop returns. -/
def splineLoop (A : Arithmetic) (w : World) (SnappedLocation : FVector)
    (ViewportClient : FLevelEditorViewportClient) : List UActorComponent → Bool × World
  | [] => (false, w)
  | It :: rest =>
    if It.IsSpline then
      match w.FindComponentVisualizer It.Class with
      | some SplineVisualizer =>
        let SelectedKeys := SplineVisualizer.SelectedKeys
        if SelectedKeys.length > 0 then
          let w := { w with Transactions := w.Transactions + 1 }
          let w := ModifyComponent w It.Id
          let ReferenceLocation := ViewportClient.WidgetLocation
          let MoveOffset := FVector.sub A SnappedLocation ReferenceLocation
          let w := moveSelectedKeys A w It.Id MoveOffset SelectedKeys
          let w := UpdateSpline w It.Id
          (true, w)
        else
          splineLoop A w SnappedLocation ViewportClient rest
      | none => splineLoop A w SnappedLocation ViewportClient rest
    else
      splineLoop A w SnappedLocation ViewportClient rest

/-- FSplineTeleportHandler::TeleportSelectedSplinePoint; `Module` tells whether
the module pointer is non-null. The result is the handled flag and the state. -/
def TeleportSelectedSplinePoint (A : Arithmetic) (w : World) (Location : FVector)
    (Module : Bool) : Bool × World :=
  if !w.GEditor then (false, w) else
  match w.SelectedComponents with
  | none => (false, w)
  | some Components =>
    if !Module then (false, w) else
    let SnappedLocation := SnapLocationToGrid A w Location
    match w.ViewportClient with
    | none => (false, w)
    | some ViewportClient => splineLoop A w SnappedLocation ViewportClient Components

/-! ## Location resolver and dispatch -/

/-- Body of the loop that collects the actors the ray ignores: every selected
actor and the actors of its group. -/
def ignoredStep (w : World) (Ignored : List Nat) (It : Option Nat) : List Nat :=
  match It with
  | none => Ignored
  | some Actor =>
    let Ignored := Ignored ++ [Actor]
    match w.RootForActor Actor with
    | some GroupActor => Ignored ++ w.GroupActors GroupActor
    | none => Ignored

/-- FTeleportToMouseModule::GetTeleportLocation: the location and the success flag. -/
def GetTeleportLocation (w : World) (ViewportClient : Option FLevelEditorViewportClient) :
    FVector × Bool :=
  match ViewportClient with
  | none => (FVector.ZeroVector, false)
  | some Client =>
    if !Client.Viewport then (FVector.ZeroVector, false) else
    if !Client.SceneView then (FVector.ZeroVector, false) else
    let Ignored := w.SelectedActors.foldl (ignoredStep w) []
    if !w.EditorWorld then (FVector.ZeroVector, false) else
    match w.LineTraceSingleByChannel Ignored with
    | some HitLocation => (HitLocation, true)
    | none => (FVector.ZeroVector, false)

/-- UEditorEngine::RedrawLevelEditingViewports. -/
def RedrawLevelEditingViewports (w : World) : World :=
  { w with Redrawn := w.Redrawn + 1 }

/-- FEditorViewportClient::Invalidate. -/
def Invalidate (w : World) : World :=
  { w with Invalidated := w.Invalidated + 1 }

/-- UEditorEngine::NoteSelectionChange. -/
def NoteSelectionChange (w : World) : World :=
  { w with SelectionChangeNoted := w.SelectionChangeNoted + 1 }

/-- FTeleportToMouseModule::OnTeleportHotkeyPressed. -/
def OnTeleportHotkeyPressed (A : Arithmetic) (w : World) : World :=
  if !w.GEditor || !w.ActiveViewport then w else
  let r := GetTeleportLocation w w.ViewportClient
  let Location := r.1
  let bSuccess := r.2
  if !bSuccess then w else
  let h := TeleportSelectedSplinePoint A w Location true
  if h.1 then
    RedrawLevelEditingViewports h.2
  else
    let w := TeleportActors A h.2 Location
    match w.ViewportClient with
    | some _ => NoteSelectionChange (RedrawLevelEditingViewports (Invalidate w))
    | none => w

/-! ## Properties used as specifications -/

/-- The value `r` is an integer multiple of `g` nearest to `x`. -/
def NearestMultiple (g x r : ℚ) : Prop :=
  (∃ n : ℤ, r = n * g) ∧ |r - x| ≤ g / 2 ∧ ∀ k : ℤ, |r - x| ≤ |(k : ℚ) * g - x|

/-- The actor `a` is in the current selection. -/
def Selected (w : World) (a : Nat) : Prop := some a ∈ w.SelectedActors

instance (w : World) (a : Nat) : Decidable (Selected w a) :=
  inferInstanceAs (Decidable (some a ∈ w.SelectedActors))

/-- The group `G` has a selected member: it is the group root that
`GetRootForActor` returns for some selected actor. -/
def HasSelectedMember (w : World) (G : Nat) : Prop :=
  ∃ s, Selected w s ∧ w.RootForActor s = some G

/-- The move set in the words of the specification: the selected ungrouped
actors, the selected members of unlocked groups, and all members of every
locked group that has a selected member. -/
def InMoveSet (w : World) (a : Nat) : Prop :=
  (Selected w a ∧ w.RootForActor a = none) ∨
  (Selected w a ∧ ∃ U, w.RootForActor a = some U ∧ w.IsLocked U = false) ∨
  (∃ G, HasSelectedMember w G ∧ w.IsLocked G = true ∧ a ∈ w.GroupActors G)

/-- Arithmetic mean of the locations `loc` of the actors of a list. -/
def meanLocation (loc : Nat → FVector) (l : List Nat) : FVector :=
  ⟨(l.map (fun a => (loc a).X)).sum / l.length,
   (l.map (fun a => (loc a).Y)).sum / l.length,
   (l.map (fun a => (loc a).Z)).sum / l.length⟩

/-- The binary64 snap of the coordinate `x` on the grid `g` stays in range:
the grid line it finds, `RoundToFloat (x / g)`, lies within 2 ^ 49 steps of the
origin, and the product of that line and the grid size is zero or of a
magnitude in the normal range of binary64. -/
def SnapsInRange (g x : ℚ) : Prop :=
  |RoundToFloat Arithmetic.double (Arithmetic.double.div x g)| ≤ 2 ^ 49 ∧
    (RoundToFloat Arithmetic.double (Arithmetic.double.div x g) = 0 ∨
      ((2 : ℚ) ^ (-1022 : ℤ) ≤
          |RoundToFloat Arithmetic.double (Arithmetic.double.div x g) * g| ∧
        |RoundToFloat Arithmetic.double (Arithmetic.double.div x g) * g| <
          2 ^ (1023 : ℤ)))

/-- The selected component `c` is a spline component whose visualizer reports
at least one selected control point. -/
def HasSelectedPoint (w : World) (c : UActorComponent) : Prop :=
  c.IsSpline = true ∧
    ∃ v, w.FindComponentVisualizer c.Class = some v ∧ v.SelectedKeys ≠ []

/-- What one selected object adds to the actors to move. -/
def itemMoves (w : World) (It : Option Nat) (a : Nat) : Prop :=
  ∃ s, It = some s ∧
    ((a = s ∧ w.RootForActor s = none) ∨
     (a = s ∧ ∃ U, w.RootForActor s = some U ∧ w.IsLocked U = false) ∨
     (∃ G, w.RootForActor s = some G ∧ w.IsLocked G = true ∧ a ∈ w.GroupActors G))

/-- The state the handler leaves when it moves the keys of a component. -/
def splineMoved (A : Arithmetic) (w : World) (S : FVector) (vc : FLevelEditorViewportClient)
    (c : UActorComponent) (v : FSplineComponentVisualizer) : World :=
  UpdateSpline (moveSelectedKeys A
    (ModifyComponent { w with Transactions := w.Transactions + 1 } c.Id) c.Id
    (FVector.sub A S vc.WidgetLocation) v.SelectedKeys) c.Id

/-! ## Concrete scenes -/

/-- A blank editor: nothing selected, no groups, every actor at the origin,
grid snap off, and a ray that hits the point (5, 5, 0). -/
def blankWorld : World where
  GEditor := true
  GUnrealEd := true
  LocationGridSnap_IsChecked := false
  GridSize := 10
  PivotLocation := ⟨0, 0, 0⟩
  PivotForSelection := fun loc => loc 0
  SelectedActors := []
  ActorLocation := fun _ => ⟨0, 0, 0⟩
  RootForActor := fun _ => none
  IsLocked := fun _ => false
  GroupActors := fun _ => []
  Transactions := 0
  Modified := []
  PostEditMoved := []
  Dirty := []
  ActiveViewport := true
  ViewportClient := some ⟨true, true, ⟨0, 0, 0⟩⟩
  EditorWorld := true
  LineTraceSingleByChannel := fun _ => some ⟨5, 5, 0⟩
  SelectedComponents := some []
  FindComponentVisualizer := fun _ => none
  SplinePointLocation := fun _ _ => ⟨0, 0, 0⟩
  ModifiedComponents := []
  UpdatedSplines := []
  Invalidated := 0
  Redrawn := 0
  SelectionChangeNoted := 0

/-- The example of the specification: three selected ungrouped actors at
(0,0,0), (10,0,0) and (0,10,0), pivot at the origin, grid snap off. -/
def threeActors : World :=
  { blankWorld with
    SelectedActors := [some 0, some 1, some 2]
    ActorLocation := fun a =>
      if a = 1 then ⟨10, 0, 0⟩ else if a = 2 then ⟨0, 10, 0⟩ else ⟨0, 0, 0⟩ }

/-- A scene with groups, grid snap on with grid size 10. Locked group 10 has
the members 1 and 2, unlocked group 20 the members 3 and 4; actors 5 and 6 are
ungrouped. Selected are 1, 3 and 5. -/
def groupedScene : World :=
  { blankWorld with
    LocationGridSnap_IsChecked := true
    SelectedActors := [some 1, some 3, some 5]
    ActorLocation := fun a =>
      if a = 1 then ⟨0, 0, 0⟩ else if a = 2 then ⟨10, 0, 0⟩ else
      if a = 3 then ⟨0, 20, 0⟩ else if a = 4 then ⟨0, 40, 0⟩ else
      if a = 5 then ⟨7, 7, 7⟩ else if a = 6 then ⟨1, 2, 3⟩ else
      if a = 10 then ⟨5, 0, 0⟩ else if a = 20 then ⟨0, 30, 0⟩ else ⟨0, 0, 0⟩
    RootForActor := fun a =>
      if a = 1 ∨ a = 2 ∨ a = 10 then some 10 else
      if a = 3 ∨ a = 4 ∨ a = 20 then some 20 else none
    IsLocked := fun g => decide (g = 10)
    GroupActors := fun g => if g = 10 then [1, 2] else if g = 20 then [3, 4] else [] }

/-- A scene with a selected spline component (identity 8, class 1) after a
selected component that is no spline; the visualizer of class 1 reports the
selected keys 0 and 2, and the transform widget sits at (100, 0, 0). -/
def splineScene : World :=
  { blankWorld with
    ViewportClient := some ⟨true, true, ⟨100, 0, 0⟩⟩
    SelectedActors := [some 0]
    SelectedComponents := some [⟨7, 0, false⟩, ⟨8, 1, true⟩]
    FindComponentVisualizer := fun c => if c = 1 then some ⟨[0, 2]⟩ else none
    SplinePointLocation := fun _ k => ⟨100 * k, 0, 0⟩ }


/-- A scene in which an unlocked group actor is itself selected. The unlocked
group 20 has the members 3 and 4, at x = 0 and x = 2, with the group actor at
their centre x = 1. The group actor is at top level: `GetRootForActor` gives
nothing for it. Selected are member 3 and the group actor. -/
def rootSelectedScene : World :=
  { blankWorld with
    SelectedActors := [some 3, some 20]
    ActorLocation := fun a =>
      if a = 4 then ⟨2, 0, 0⟩ else if a = 20 then ⟨1, 0, 0⟩ else ⟨0, 0, 0⟩
    RootForActor := fun a => if a = 3 ∨ a = 4 then some 20 else none
    GroupActors := fun g => if g = 20 then [3, 4] else [] }

/-- A scene with nested groups. The unlocked group 30 is the group root of
everything and has no actor of its own; inside it the locked group 10 has the
members 1 and 2 (x = 0 and x = 2, group actor at x = 1) and the unlocked group
20 the members 3 and 4 (x = 10 and x = 12, group actor at x = 11). Selected
are 1 and 3. -/
def nestedScene : World :=
  { blankWorld with
    SelectedActors := [some 1, some 3]
    ActorLocation := fun a =>
      if a = 1 then ⟨0, 0, 0⟩ else if a = 2 then ⟨2, 0, 0⟩ else
      if a = 10 then ⟨1, 0, 0⟩ else if a = 3 then ⟨10, 0, 0⟩ else
      if a = 4 then ⟨12, 0, 0⟩ else if a = 20 then ⟨11, 0, 0⟩ else ⟨0, 0, 0⟩
    RootForActor := fun a =>
      if a = 1 ∨ a = 2 ∨ a = 3 ∨ a = 4 ∨ a = 10 ∨ a = 20 then some 30 else none
    IsLocked := fun g => decide (g = 10)
    GroupActors := fun g => if g = 10 then [1, 2] else if g = 20 then [3, 4] else [] }

/-- The binary64 value nearest to 0.1. -/
def tenth : ℚ := 3602879701896397 / 36028797018963968

/-- The binary64 value nearest to 0.2. -/
def fifth : ℚ := 3602879701896397 / 18014398509481984

/-- The binary64 value nearest to 0.3. -/
def threeTenths : ℚ := 5404319552844595 / 18014398509481984

/-- The binary64 value nearest to 0.7. -/
def sevenTenths : ℚ := 3152519739159347 / 4503599627370496

/-- A scene with coordinates that are no dyadic fractions of few bits: actor 1
at x = 0.1 is the member of the locked group 10, whose group actor is at
x = 0.2; actor 2 at the origin is ungrouped; the pivot is at x = 0.3. Selected
are 1 and 2; grid snap is off. -/
def doubleScene : World :=
  { blankWorld with
    PivotLocation := ⟨threeTenths, 0, 0⟩
    SelectedActors := [some 1, some 2]
    ActorLocation := fun a =>
      if a = 1 then ⟨tenth, 0, 0⟩ else if a = 10 then ⟨fifth, 0, 0⟩ else ⟨0, 0, 0⟩
    RootForActor := fun a => if a = 1 ∨ a = 10 then some 10 else none
    IsLocked := fun g => decide (g = 10)
    GroupActors := fun g => if g = 10 then [1] else [] }

/-- A scene with an unlocked group of three: group 20 has the members 1, 2 and
3, at x = 1, 0 and 0; member 1 is selected. -/
def thirdsScene : World :=
  { blankWorld with
    SelectedActors := [some 1]
    ActorLocation := fun a => if a = 1 then ⟨1, 0, 0⟩ else ⟨0, 0, 0⟩
    RootForActor := fun a => if a = 1 ∨ a = 2 ∨ a = 3 ∨ a = 20 then some 20 else none
    GroupActors := fun g => if g = 20 then [1, 2, 3] else [] }

/-- The `float` nearest to 0.1, a grid size. -/
def gridTenth : ℚ := 13421773 / 134217728

/-- A binary64 coordinate far from the origin, 0x1.8eea1e3066a05p+48. -/
def farCoordinate : ℚ := 7017778507049477 / 16

/-- An editor with grid snap on and the grid size 0.1f. -/
def fineGrid : World :=
  { blankWorld with
    LocationGridSnap_IsChecked := true
    GridSize := gridTenth }

/-! ## Vector lemmas -/

@[simp] theorem FVector.add_X (A : Arithmetic) (a b : FVector) :
    (FVector.add A a b).X = A.add a.X b.X := rfl

@[simp] theorem FVector.add_Y (A : Arithmetic) (a b : FVector) :
    (FVector.add A a b).Y = A.add a.Y b.Y := rfl

@[simp] theorem FVector.add_Z (A : Arithmetic) (a b : FVector) :
    (FVector.add A a b).Z = A.add a.Z b.Z := rfl

@[simp] theorem FVector.sub_X (A : Arithmetic) (a b : FVector) :
    (FVector.sub A a b).X = A.sub a.X b.X := rfl

@[simp] theorem FVector.sub_Y (A : Arithmetic) (a b : FVector) :
    (FVector.sub A a b).Y = A.sub a.Y b.Y := rfl

@[simp] theorem FVector.sub_Z (A : Arithmetic) (a b : FVector) :
    (FVector.sub A a b).Z = A.sub a.Z b.Z := rfl

@[simp] theorem Arithmetic.rational_add (a b : ℚ) : Arithmetic.rational.add a b = a + b := rfl

@[simp] theorem Arithmetic.rational_sub (a b : ℚ) : Arithmetic.rational.sub a b = a - b := rfl

@[simp] theorem Arithmetic.rational_mul (a b : ℚ) : Arithmetic.rational.mul a b = a * b := rfl

@[simp] theorem Arithmetic.rational_div (a b : ℚ) : Arithmetic.rational.div a b = a / b := rfl

theorem Arithmetic.double_add (a b : ℚ) : Arithmetic.double.add a b = roundDouble (a + b) := rfl

theorem Arithmetic.double_sub (a b : ℚ) : Arithmetic.double.sub a b = roundDouble (a - b) := rfl

theorem Arithmetic.double_mul (a b : ℚ) : Arithmetic.double.mul a b = roundDouble (a * b) := rfl

theorem Arithmetic.double_div (a b : ℚ) : Arithmetic.double.div a b = roundDouble (a / b) := rfl

/-! ## Rounding to binary64: evaluation -/

theorem roundHalfEven_of_abs_lt (q : ℚ) (n : ℤ) (h : |q - n| < 1 / 2) :
    roundHalfEven q = n := by
  rw [abs_lt] at h
  obtain ⟨h1, h2⟩ := h
  unfold roundHalfEven
  by_cases hq : (n : ℚ) ≤ q
  · have hf : ⌊q⌋ = n := by
      rw [Int.floor_eq_iff]
      constructor <;> linarith
    rw [hf, if_pos (by linarith)]
  · have hf : ⌊q⌋ = n - 1 := by
      rw [Int.floor_eq_iff]
      push_cast
      constructor <;> linarith
    have hc : ((n - 1 : ℤ) : ℚ) = n - 1 := by push_cast; rfl
    rw [hf, hc, if_neg (by linarith), if_pos (by linarith)]
    ring

theorem log_two_eq (x : ℚ) (e : ℤ) (hx : 0 < x) (h1 : (2 : ℚ) ^ e ≤ x)
    (h2 : x < (2 : ℚ) ^ (e + 1)) : Int.log 2 x = e := by
  have a : e ≤ Int.log 2 x := by
    rw [← Int.zpow_le_iff_le_log (by norm_num) hx]
    exact_mod_cast h1
  have b : Int.log 2 x < e + 1 := by
    rw [← Int.lt_zpow_iff_log_lt (by norm_num) hx]
    exact_mod_cast h2
  omega

@[simp] theorem roundDouble_zero : roundDouble 0 = 0 := by
  simp [roundDouble]

/-- A positive `x` with leading bit `2 ^ e` rounds to the multiple `n` of
`2 ^ (e - 52)` that lies less than half a spacing away. -/
theorem roundDouble_eq_of_pos (x : ℚ) (e n : ℤ) (he : -1022 ≤ e) (hx : 0 < x)
    (h1 : (2 : ℚ) ^ e ≤ x) (h2 : x < (2 : ℚ) ^ (e + 1))
    (hn : |x / 2 ^ (e - 52) - n| < 1 / 2) : roundDouble x = n * 2 ^ (e - 52) := by
  unfold roundDouble
  rw [if_neg (ne_of_gt hx)]
  simp only [abs_of_pos hx, log_two_eq x e hx h1 h2, max_eq_left he]
  rw [roundHalfEven_of_abs_lt _ n hn]

/-- The same for a negative `x`. -/
theorem roundDouble_eq_of_neg (x : ℚ) (e n : ℤ) (he : -1022 ≤ e) (hx : x < 0)
    (h1 : (2 : ℚ) ^ e ≤ -x) (h2 : -x < (2 : ℚ) ^ (e + 1))
    (hn : |x / 2 ^ (e - 52) - n| < 1 / 2) : roundDouble x = n * 2 ^ (e - 52) := by
  unfold roundDouble
  rw [if_neg (ne_of_lt hx)]
  simp only [abs_of_neg hx, log_two_eq (-x) e (by linarith) h1 h2, max_eq_left he]
  rw [roundHalfEven_of_abs_lt _ n hn]

theorem roundHalfEven_of_tie_odd (q : ℚ) (f : ℤ) (h : q = f + 1 / 2) (hodd : f % 2 = 1) :
    roundHalfEven q = f + 1 := by
  have hf : ⌊q⌋ = f := by
    rw [Int.floor_eq_iff]
    constructor <;> linarith
  unfold roundHalfEven
  rw [hf, if_neg (by linarith), if_neg (by linarith), if_neg (by omega)]

/-- A positive `x` with leading bit `2 ^ e` that lies half way between two
multiples of `2 ^ (e - 52)` rounds to the even one; here the lower multiple
`f` is odd. -/
theorem roundDouble_eq_of_pos_tie (x : ℚ) (e f : ℤ) (he : -1022 ≤ e) (hx : 0 < x)
    (h1 : (2 : ℚ) ^ e ≤ x) (h2 : x < (2 : ℚ) ^ (e + 1))
    (hq : x / 2 ^ (e - 52) = f + 1 / 2) (hodd : f % 2 = 1) :
    roundDouble x = ((f + 1 : ℤ) : ℚ) * 2 ^ (e - 52) := by
  unfold roundDouble
  rw [if_neg (ne_of_gt hx)]
  simp only [abs_of_pos hx, log_two_eq x e hx h1 h2, max_eq_left he]
  rw [roundHalfEven_of_tie_odd _ f hq hodd]

theorem log_two_bounds (x : ℚ) (hx1 : 1 ≤ x) (hx2 : x < 2 ^ (53 : ℤ)) :
    0 ≤ Int.log 2 x ∧ Int.log 2 x ≤ 52 ∧ (2 : ℚ) ^ Int.log 2 x ≤ x ∧
      x < (2 : ℚ) ^ (Int.log 2 x + 1) := by
  have hx : 0 < x := by linarith
  refine ⟨?_, ?_, ?_, ?_⟩
  · rw [← Int.zpow_le_iff_le_log (by norm_num) hx]
    simpa using hx1
  · have : Int.log 2 x < 53 := by
      rw [← Int.lt_zpow_iff_log_lt (by norm_num) hx]
      exact_mod_cast hx2
    omega
  · exact_mod_cast Int.zpow_log_le_self (b := 2) (by norm_num) hx
  · exact_mod_cast Int.lt_zpow_succ_log_self (b := 2) (by norm_num) x

/-- Every integer below 2 ^ 53 in absolute value is a binary64 value. -/
theorem roundDouble_intCast (n : ℤ) (h1 : -(2 ^ 53) < n) (h2 : n < 2 ^ 53) :
    roundDouble (n : ℚ) = n := by
  have e53 : (2 : ℚ) ^ (53 : ℤ) = ((2 ^ 53 : ℤ) : ℚ) := by norm_num
  rcases lt_trichotomy n 0 with hn | hn | hn
  · have hx : (n : ℚ) < 0 := by exact_mod_cast hn
    have hx1 : (1 : ℚ) ≤ -(n : ℚ) := by
      have : (1 : ℤ) ≤ -n := by omega
      exact_mod_cast this
    have hx2 : -(n : ℚ) < 2 ^ (53 : ℤ) := by
      have h3 : ((-n : ℤ) : ℚ) < ((2 ^ 53 : ℤ) : ℚ) := by
        have : -n < (2 : ℤ) ^ 53 := by omega
        exact_mod_cast this
      rw [e53]
      simpa using h3
    obtain ⟨e0, e52, b1, b2⟩ := log_two_bounds _ hx1 hx2
    obtain ⟨k, hk⟩ : ∃ k : ℕ, (k : ℤ) = 52 - Int.log 2 (-(n : ℚ)) :=
      ⟨(52 - Int.log 2 (-(n : ℚ))).toNat, by omega⟩
    have hpow : (2 : ℚ) ^ (Int.log 2 (-(n : ℚ)) - 52) = ((2 : ℚ) ^ k)⁻¹ := by
      have : Int.log 2 (-(n : ℚ)) - 52 = -(k : ℤ) := by omega
      rw [this, zpow_neg, zpow_natCast]
    have hk0 : ((2 : ℚ) ^ k) ≠ 0 := by positivity
    rw [roundDouble_eq_of_neg (n : ℚ) _ (n * 2 ^ k) (by omega) hx b1 b2]
    · rw [hpow]
      push_cast
      field_simp
    · rw [hpow]
      push_cast
      rw [div_inv_eq_mul, sub_self, abs_zero]
      norm_num
  · subst hn
    simp
  · have hx : (0 : ℚ) < n := by exact_mod_cast hn
    have hx1 : (1 : ℚ) ≤ (n : ℚ) := by
      have : (1 : ℤ) ≤ n := by omega
      exact_mod_cast this
    have hx2 : (n : ℚ) < 2 ^ (53 : ℤ) := by
      rw [e53]
      exact_mod_cast h2
    obtain ⟨e0, e52, b1, b2⟩ := log_two_bounds _ hx1 hx2
    obtain ⟨k, hk⟩ : ∃ k : ℕ, (k : ℤ) = 52 - Int.log 2 (n : ℚ) :=
      ⟨(52 - Int.log 2 (n : ℚ)).toNat, by omega⟩
    have hpow : (2 : ℚ) ^ (Int.log 2 (n : ℚ) - 52) = ((2 : ℚ) ^ k)⁻¹ := by
      have : Int.log 2 (n : ℚ) - 52 = -(k : ℤ) := by omega
      rw [this, zpow_neg, zpow_natCast]
    have hk0 : ((2 : ℚ) ^ k) ≠ 0 := by positivity
    rw [roundDouble_eq_of_pos (n : ℚ) _ (n * 2 ^ k) (by omega) hx b1 b2]
    · rw [hpow]
      push_cast
      field_simp
    · rw [hpow]
      push_cast
      rw [div_inv_eq_mul, sub_self, abs_zero]
      norm_num

theorem roundDouble_of_int (x : ℚ) (n : ℤ) (hx : x = n) (h1 : -(2 ^ 53) < n)
    (h2 : n < 2 ^ 53) : roundDouble x = x := by
  rw [hx]
  exact roundDouble_intCast n h1 h2

/-! ## Grid snap: lemmas -/

theorem RoundToFloat_rational (x : ℚ) :
    RoundToFloat Arithmetic.rational x = (⌊x + 1 / 2⌋ : ℤ) := rfl

theorem RoundToFloat_intCast (n : ℤ) : RoundToFloat Arithmetic.rational (n : ℚ) = n := by
  rw [RoundToFloat_rational]
  have h : ⌊(n : ℚ) + 1 / 2⌋ = n := by
    rw [Int.floor_eq_iff]
    constructor <;> linarith
  rw [h]

theorem RoundToFloat_sub_le (x : ℚ) : |RoundToFloat Arithmetic.rational x - x| ≤ 1 / 2 := by
  rw [RoundToFloat_rational]
  have h1 : ((⌊x + 1 / 2⌋ : ℤ) : ℚ) ≤ x + 1 / 2 := Int.floor_le _
  have h2 : x + 1 / 2 < (⌊x + 1 / 2⌋ : ℤ) + 1 := Int.lt_floor_add_one _
  rw [abs_le]
  constructor <;> linarith

theorem RoundToFloat_nearest (x : ℚ) (k : ℤ) :
    |RoundToFloat Arithmetic.rational x - x| ≤ |(k : ℚ) - x| := by
  by_cases hk : k = ⌊x + 1 / 2⌋
  · subst hk
    exact le_of_eq rfl
  · have hle := RoundToFloat_sub_le x
    have h1 : ((⌊x + 1 / 2⌋ : ℤ) : ℚ) ≤ x + 1 / 2 := Int.floor_le _
    have h2 : x + 1 / 2 < (⌊x + 1 / 2⌋ : ℤ) + 1 := Int.lt_floor_add_one _
    rcases lt_or_gt_of_ne hk with hlt | hgt
    · have h3 : (k : ℚ) + 1 ≤ (⌊x + 1 / 2⌋ : ℤ) := by exact_mod_cast hlt
      have h4 : (1 : ℚ) / 2 ≤ |(k : ℚ) - x| := by
        rw [le_abs]
        right
        linarith
      linarith
    · have h3 : ((⌊x + 1 / 2⌋ : ℤ) : ℚ) + 1 ≤ (k : ℚ) := by exact_mod_cast hgt
      have h4 : (1 : ℚ) / 2 ≤ |(k : ℚ) - x| := by
        rw [le_abs]
        left
        linarith
      linarith

theorem snapCoordinate_nearest (g x : ℚ) (hg : 0 < g) :
    NearestMultiple g x (RoundToFloat Arithmetic.rational (x / g) * g) := by
  have hne : g ≠ 0 := ne_of_gt hg
  have key : ∀ r : ℚ, r * g - x = (r - x / g) * g := by
    intro r
    field_simp
  refine ⟨⟨⌊x / g + 1 / 2⌋, rfl⟩, ?_, ?_⟩
  · rw [key, abs_mul, abs_of_pos hg]
    have := RoundToFloat_sub_le (x / g)
    nlinarith
  · intro k
    rw [key, key, abs_mul, abs_mul, abs_of_pos hg]
    exact mul_le_mul_of_nonneg_right (RoundToFloat_nearest (x / g) k) (le_of_lt hg)

theorem snapCoordinate_idem (g x : ℚ) (hg : 0 < g) :
    RoundToFloat Arithmetic.rational (RoundToFloat Arithmetic.rational (x / g) * g / g) * g =
      RoundToFloat Arithmetic.rational (x / g) * g := by
  have hne : g ≠ 0 := ne_of_gt hg
  rw [mul_div_assoc, div_self hne, mul_one, RoundToFloat_rational (x / g),
    RoundToFloat_intCast]

theorem SnapLocationToGrid_of_on (A : Arithmetic) (w : World) (p : FVector)
    (hs : w.LocationGridSnap_IsChecked = true) (he : w.GEditor = true) (hg : 0 < w.GridSize) :
    SnapLocationToGrid A w p =
      ⟨A.mul (RoundToFloat A (A.div p.X w.GridSize)) w.GridSize,
       A.mul (RoundToFloat A (A.div p.Y w.GridSize)) w.GridSize,
       A.mul (RoundToFloat A (A.div p.Z w.GridSize)) w.GridSize⟩ := by
  simp [SnapLocationToGrid, hs, he, not_le.mpr hg]

theorem SnapLocationToGrid_of_off (A : Arithmetic) (w : World) (p : FVector)
    (h : w.LocationGridSnap_IsChecked = false ∨ w.GEditor = false ∨ w.GridSize ≤ 0) :
    SnapLocationToGrid A w p = p := by
  unfold SnapLocationToGrid
  rcases h with h | h | h
  · simp [h]
  · simp [h]
  · split
    · rfl
    · simp [h]

/-! ## The sets collected from the selection -/

theorem mem_TSetAdd (s : List Nat) (a x : Nat) : x ∈ TSetAdd s a ↔ x ∈ s ∨ x = a := by
  unfold TSetAdd
  split
  · constructor
    · intro h
      exact Or.inl h
    · rintro (h | h)
      · exact h
      · subst h
        assumption
  · simp

theorem mem_TSetAppend (xs s : List Nat) (x : Nat) :
    x ∈ TSetAppend s xs ↔ x ∈ s ∨ x ∈ xs := by
  unfold TSetAppend
  induction xs generalizing s with
  | nil => simp
  | cons y ys ih =>
    rw [List.foldl_cons, ih, mem_TSetAdd, List.mem_cons]
    tauto

theorem mem_collectStep_ActorsToMove (w : World) (c : Collected) (It : Option Nat) (a : Nat) :
    a ∈ (collectStep w c It).ActorsToMove ↔ a ∈ c.ActorsToMove ∨ itemMoves w It a := by
  unfold itemMoves
  cases It with
  | none => simp [collectStep]
  | some s =>
    cases hr : w.RootForActor s with
    | none => simp [collectStep, hr, mem_TSetAdd]
    | some G =>
      cases hl : w.IsLocked G with
      | true => simp [collectStep, hr, hl, mem_TSetAppend]
      | false => simp [collectStep, hr, hl, mem_TSetAdd]

theorem collectStep_locked (w : World) (c : Collected) (s G : Nat)
    (hr : w.RootForActor s = some G) (hl : w.IsLocked G = true) :
    collectStep w c (some s) =
      ⟨TSetAppend c.ActorsToMove (w.GroupActors G), TSetAdd c.LockedGroups G,
        c.UnlockedGroups⟩ := by
  simp [collectStep, hr, hl]

theorem collectStep_unlocked (w : World) (c : Collected) (s G : Nat)
    (hr : w.RootForActor s = some G) (hl : w.IsLocked G = false) :
    collectStep w c (some s) =
      ⟨TSetAdd c.ActorsToMove s, c.LockedGroups, TSetAdd c.UnlockedGroups G⟩ := by
  simp [collectStep, hr, hl]

theorem collectStep_ungrouped (w : World) (c : Collected) (s : Nat)
    (hr : w.RootForActor s = none) :
    collectStep w c (some s) = ⟨TSetAdd c.ActorsToMove s, c.LockedGroups, c.UnlockedGroups⟩ := by
  simp [collectStep, hr]

theorem mem_collectStep_LockedGroups (w : World) (c : Collected) (It : Option Nat) (G : Nat) :
    G ∈ (collectStep w c It).LockedGroups ↔
      G ∈ c.LockedGroups ∨ ∃ s, It = some s ∧ w.RootForActor s = some G ∧ w.IsLocked G = true := by
  cases It with
  | none => simp [collectStep]
  | some s =>
    cases hr : w.RootForActor s with
    | none =>
      rw [collectStep_ungrouped w c s hr]
      simp [hr]
    | some H =>
      cases hl : w.IsLocked H with
      | true =>
        rw [collectStep_locked w c s H hr hl]
        simp only [mem_TSetAdd]
        constructor
        · rintro (h | h)
          · exact Or.inl h
          · subst h
            exact Or.inr ⟨s, rfl, hr, hl⟩
        · rintro (h | ⟨t, ht, hh, _⟩)
          · exact Or.inl h
          · right
            cases ht
            rw [hr] at hh
            cases hh
            rfl
      | false =>
        rw [collectStep_unlocked w c s H hr hl]
        constructor
        · intro h
          exact Or.inl h
        · rintro (h | ⟨t, ht, hh, hk⟩)
          · exact h
          · cases ht
            rw [hr] at hh
            cases hh
            rw [hl] at hk
            cases hk

theorem mem_collectStep_UnlockedGroups (w : World) (c : Collected) (It : Option Nat) (U : Nat) :
    U ∈ (collectStep w c It).UnlockedGroups ↔
      U ∈ c.UnlockedGroups ∨
        ∃ s, It = some s ∧ w.RootForActor s = some U ∧ w.IsLocked U = false := by
  cases It with
  | none => simp [collectStep]
  | some s =>
    cases hr : w.RootForActor s with
    | none =>
      rw [collectStep_ungrouped w c s hr]
      simp [hr]
    | some H =>
      cases hl : w.IsLocked H with
      | false =>
        rw [collectStep_unlocked w c s H hr hl]
        simp only [mem_TSetAdd]
        constructor
        · rintro (h | h)
          · exact Or.inl h
          · subst h
            exact Or.inr ⟨s, rfl, hr, hl⟩
        · rintro (h | ⟨t, ht, hh, _⟩)
          · exact Or.inl h
          · right
            cases ht
            rw [hr] at hh
            cases hh
            rfl
      | true =>
        rw [collectStep_locked w c s H hr hl]
        constructor
        · intro h
          exact Or.inl h
        · rintro (h | ⟨t, ht, hh, hk⟩)
          · exact h
          · cases ht
            rw [hr] at hh
            cases hh
            rw [hl] at hk
            cases hk

theorem mem_foldl_collectStep_ActorsToMove (w : World) (sel : List (Option Nat))
    (c : Collected) (a : Nat) :
    a ∈ (sel.foldl (collectStep w) c).ActorsToMove ↔
      a ∈ c.ActorsToMove ∨ ∃ It ∈ sel, itemMoves w It a := by
  induction sel generalizing c with
  | nil => simp
  | cons x xs ih =>
    rw [List.foldl_cons, ih, mem_collectStep_ActorsToMove]
    simp only [List.mem_cons, exists_eq_or_imp]
    tauto

theorem mem_foldl_collectStep_LockedGroups (w : World) (sel : List (Option Nat))
    (c : Collected) (G : Nat) :
    G ∈ (sel.foldl (collectStep w) c).LockedGroups ↔
      G ∈ c.LockedGroups ∨
        ∃ s, some s ∈ sel ∧ w.RootForActor s = some G ∧ w.IsLocked G = true := by
  induction sel generalizing c with
  | nil => simp
  | cons x xs ih =>
    rw [List.foldl_cons, ih, mem_collectStep_LockedGroups]
    simp only [List.mem_cons]
    constructor
    · rintro ((h | ⟨s, hs, h⟩) | ⟨s, hs, h⟩)
      · exact Or.inl h
      · exact Or.inr ⟨s, Or.inl hs.symm, h⟩
      · exact Or.inr ⟨s, Or.inr hs, h⟩
    · rintro (h | ⟨s, hs | hs, h⟩)
      · exact Or.inl (Or.inl h)
      · exact Or.inl (Or.inr ⟨s, hs.symm, h⟩)
      · exact Or.inr ⟨s, hs, h⟩

theorem mem_foldl_collectStep_UnlockedGroups (w : World) (sel : List (Option Nat))
    (c : Collected) (U : Nat) :
    U ∈ (sel.foldl (collectStep w) c).UnlockedGroups ↔
      U ∈ c.UnlockedGroups ∨
        ∃ s, some s ∈ sel ∧ w.RootForActor s = some U ∧ w.IsLocked U = false := by
  induction sel generalizing c with
  | nil => simp
  | cons x xs ih =>
    rw [List.foldl_cons, ih, mem_collectStep_UnlockedGroups]
    simp only [List.mem_cons]
    constructor
    · rintro ((h | ⟨s, hs, h⟩) | ⟨s, hs, h⟩)
      · exact Or.inl h
      · exact Or.inr ⟨s, Or.inl hs.symm, h⟩
      · exact Or.inr ⟨s, Or.inr hs, h⟩
    · rintro (h | ⟨s, hs | hs, h⟩)
      · exact Or.inl (Or.inl h)
      · exact Or.inl (Or.inr ⟨s, hs.symm, h⟩)
      · exact Or.inr ⟨s, hs, h⟩

/-- The actors to move are exactly the move set of the specification. -/
theorem mem_ActorsToMove_iff (w : World) (a : Nat) :
    a ∈ (collect w).ActorsToMove ↔ InMoveSet w a := by
  unfold collect
  rw [mem_foldl_collectStep_ActorsToMove]
  simp only [List.not_mem_nil, false_or, InMoveSet, Selected, HasSelectedMember, itemMoves]
  constructor
  · rintro ⟨It, hIt, s, rfl, h⟩
    rcases h with ⟨rfl, h⟩ | ⟨rfl, h⟩ | ⟨G, h1, h2, h3⟩
    · exact Or.inl ⟨hIt, h⟩
    · exact Or.inr (Or.inl ⟨hIt, h⟩)
    · exact Or.inr (Or.inr ⟨G, ⟨s, hIt, h1⟩, h2, h3⟩)
  · rintro (⟨h1, h2⟩ | ⟨h1, h2⟩ | ⟨G, ⟨s, h1, h2⟩, h3, h4⟩)
    · exact ⟨some a, h1, a, rfl, Or.inl ⟨rfl, h2⟩⟩
    · exact ⟨some a, h1, a, rfl, Or.inr (Or.inl ⟨rfl, h2⟩)⟩
    · exact ⟨some s, h1, s, rfl, Or.inr (Or.inr ⟨G, h2, h3, h4⟩)⟩

theorem mem_LockedGroups_iff (w : World) (G : Nat) :
    G ∈ (collect w).LockedGroups ↔ HasSelectedMember w G ∧ w.IsLocked G = true := by
  unfold collect
  rw [mem_foldl_collectStep_LockedGroups]
  simp only [List.not_mem_nil, false_or, HasSelectedMember, Selected]
  constructor
  · rintro ⟨s, h1, h2, h3⟩
    exact ⟨⟨s, h1, h2⟩, h3⟩
  · rintro ⟨⟨s, h1, h2⟩, h3⟩
    exact ⟨s, h1, h2, h3⟩

theorem mem_UnlockedGroups_iff (w : World) (U : Nat) :
    U ∈ (collect w).UnlockedGroups ↔ HasSelectedMember w U ∧ w.IsLocked U = false := by
  unfold collect
  rw [mem_foldl_collectStep_UnlockedGroups]
  simp only [List.not_mem_nil, false_or, HasSelectedMember, Selected]
  constructor
  · rintro ⟨s, h1, h2, h3⟩
    exact ⟨⟨s, h1, h2⟩, h3⟩
  · rintro ⟨⟨s, h1, h2⟩, h3⟩
    exact ⟨s, h1, h2, h3⟩

/-! ## The loops of TeleportActors -/

theorem foldl_Modify_ActorLocation (l : List Nat) (w : World) :
    (l.foldl Modify w).ActorLocation = w.ActorLocation := by
  induction l generalizing w with
  | nil => rfl
  | cons a t ih => rw [List.foldl_cons, ih]; rfl

theorem foldl_Modify_GroupActors (l : List Nat) (w : World) :
    (l.foldl Modify w).GroupActors = w.GroupActors := by
  induction l generalizing w with
  | nil => rfl
  | cons a t ih => rw [List.foldl_cons, ih]; rfl

theorem getD_map_append_cons (h : Nat → FVector) (pre t : List Nat) (a : Nat) (d : FVector) :
    ((pre ++ a :: t).map h).getD pre.length d = h a := by
  induction pre with
  | nil => rfl
  | cons b pre ih => simpa using ih

/-- The loop that moves the actors: every listed actor ends at the snapped
location plus the offset recorded for it; nothing else is relocated. -/
theorem foldl_moveActorStep (A : Arithmetic) (S : FVector) (h : Nat → FVector)
    (l pre : List Nat) (w : World) :
    (l.foldl (moveActorStep A S ((pre ++ l).map h)) (w, pre.length)).1.ActorLocation =
        (fun x => if x ∈ l then FVector.add A S (h x) else w.ActorLocation x) ∧
      (l.foldl (moveActorStep A S ((pre ++ l).map h)) (w, pre.length)).1.GroupActors =
        w.GroupActors ∧
      (l.foldl (moveActorStep A S ((pre ++ l).map h)) (w, pre.length)).1.GUnrealEd =
        w.GUnrealEd := by
  induction l generalizing pre w with
  | nil => simp
  | cons a t ih =>
    have happ : pre ++ a :: t = (pre ++ [a]) ++ t := by simp
    have hlen : pre.length + 1 = (pre ++ [a]).length := by simp
    rw [List.foldl_cons]
    have hstep : moveActorStep A S ((pre ++ a :: t).map h) (w, pre.length) a =
        (MarkPackageDirty (PostEditMove (SetActorLocation (Modify w a) a
          (FVector.add A S (h a))) a) a, (pre ++ [a]).length) := by
      simp only [moveActorStep, getD_map_append_cons, hlen]
    rw [hstep, happ]
    obtain ⟨h1, h2, h3⟩ := ih (pre ++ [a])
      (MarkPackageDirty (PostEditMove (SetActorLocation (Modify w a) a
        (FVector.add A S (h a))) a) a)
    refine ⟨?_, ?_, ?_⟩
    · rw [h1]
      funext x
      by_cases hx : x ∈ t
      · simp [hx]
      · by_cases hxa : x = a
        · subst hxa
          simp [hx, MarkPackageDirty, PostEditMove, SetActorLocation]
        · simp [hx, hxa, MarkPackageDirty, PostEditMove, SetActorLocation, Modify]
    · rw [h2]
      rfl
    · rw [h3]
      rfl

/-- The loop that moves the locked group actors. -/
theorem foldl_moveLockedGroupStep (A : Arithmetic) (S : FVector) (h : Nat → FVector)
    (l pre : List Nat) (w : World) :
    (l.foldl (moveLockedGroupStep A S ((pre ++ l).map h)) (w, pre.length)).1.ActorLocation =
        (fun x => if x ∈ l then FVector.add A S (h x) else w.ActorLocation x) ∧
      (l.foldl (moveLockedGroupStep A S ((pre ++ l).map h)) (w, pre.length)).1.GroupActors =
        w.GroupActors ∧
      (l.foldl (moveLockedGroupStep A S ((pre ++ l).map h)) (w, pre.length)).1.GUnrealEd =
        w.GUnrealEd := by
  induction l generalizing pre w with
  | nil => simp
  | cons a t ih =>
    have happ : pre ++ a :: t = (pre ++ [a]) ++ t := by simp
    have hlen : pre.length + 1 = (pre ++ [a]).length := by simp
    rw [List.foldl_cons]
    have hstep : moveLockedGroupStep A S ((pre ++ a :: t).map h) (w, pre.length) a =
        (MarkPackageDirty (SetActorLocation w a (FVector.add A S (h a))) a,
          (pre ++ [a]).length) := by
      simp only [moveLockedGroupStep, getD_map_append_cons, hlen]
    rw [hstep, happ]
    obtain ⟨h1, h2, h3⟩ := ih (pre ++ [a])
      (MarkPackageDirty (SetActorLocation w a (FVector.add A S (h a))) a)
    refine ⟨?_, ?_, ?_⟩
    · rw [h1]
      funext x
      by_cases hx : x ∈ t
      · simp [hx]
      · by_cases hxa : x = a
        · subst hxa
          simp [hx, MarkPackageDirty, SetActorLocation]
        · simp [hx, hxa, MarkPackageDirty, SetActorLocation]
    · rw [h2]
      rfl
    · rw [h3]
      rfl

/-- The sum the recentring loop forms depends on the locations of the listed
actors only. -/
theorem sumLocations_congr (A : Arithmetic) (w1 w2 : World) (l : List Nat)
    (h : ∀ m ∈ l, w1.ActorLocation m = w2.ActorLocation m) :
    sumLocations A w1 l = sumLocations A w2 l := by
  unfold sumLocations
  generalize FVector.ZeroVector = acc
  induction l generalizing acc with
  | nil => rfl
  | cons a t ih =>
    rw [List.foldl_cons, List.foldl_cons, h a (List.mem_cons_self a t)]
    exact ih (fun m hm => h m (List.mem_cons_of_mem a hm)) _

theorem foldl_add_X (loc : Nat → FVector) (l : List Nat) (acc : FVector) :
    (l.foldl (fun C a => FVector.add Arithmetic.rational C (loc a)) acc).X =
      acc.X + (l.map (fun a => (loc a).X)).sum := by
  induction l generalizing acc with
  | nil => simp
  | cons a t ih =>
    rw [List.foldl_cons, ih]
    simp [add_assoc]

theorem foldl_add_Y (loc : Nat → FVector) (l : List Nat) (acc : FVector) :
    (l.foldl (fun C a => FVector.add Arithmetic.rational C (loc a)) acc).Y =
      acc.Y + (l.map (fun a => (loc a).Y)).sum := by
  induction l generalizing acc with
  | nil => simp
  | cons a t ih =>
    rw [List.foldl_cons, ih]
    simp [add_assoc]

theorem foldl_add_Z (loc : Nat → FVector) (l : List Nat) (acc : FVector) :
    (l.foldl (fun C a => FVector.add Arithmetic.rational C (loc a)) acc).Z =
      acc.Z + (l.map (fun a => (loc a).Z)).sum := by
  induction l generalizing acc with
  | nil => simp
  | cons a t ih =>
    rw [List.foldl_cons, ih]
    simp [add_assoc]

/-- In exact arithmetic the centre computed by the recentring loop is the
arithmetic mean. -/
theorem sumLocations_divScalar (w : World) (l : List Nat) :
    (sumLocations Arithmetic.rational w l).divScalar Arithmetic.rational (l.length : ℚ) =
      meanLocation w.ActorLocation l := by
  unfold sumLocations meanLocation FVector.divScalar
  rw [foldl_add_X, foldl_add_Y, foldl_add_Z]
  simp [FVector.ZeroVector]

theorem recentreStep_GroupActors (A : Arithmetic) (w : World) (g : Nat) :
    (recentreStep A w g).GroupActors = w.GroupActors := by
  unfold recentreStep
  dsimp only
  split <;> rfl

theorem recentreStep_ActorLocation_of_ne (A : Arithmetic) (w : World) (g x : Nat)
    (hx : x ≠ g) : (recentreStep A w g).ActorLocation x = w.ActorLocation x := by
  unfold recentreStep
  dsimp only
  split
  · simp [MarkPackageDirty, SetActorLocation, hx]
  · rfl

theorem recentreStep_ActorLocation_self (A : Arithmetic) (w : World) (g : Nat)
    (hg : w.GroupActors g ≠ []) :
    (recentreStep A w g).ActorLocation g =
      (sumLocations A w (w.GroupActors g)).divScalar A ((w.GroupActors g).length : ℚ) := by
  have hlen : (w.GroupActors g).length > 0 := List.length_pos.mpr hg
  unfold recentreStep
  simp only [hlen, if_true]
  simp [MarkPackageDirty, SetActorLocation]

theorem foldl_recentreStep_GroupActors (A : Arithmetic) (us : List Nat) (w : World) :
    (us.foldl (recentreStep A) w).GroupActors = w.GroupActors := by
  induction us generalizing w with
  | nil => rfl
  | cons u t ih => rw [List.foldl_cons, ih, recentreStep_GroupActors]

/-- The recentring loop relocates only the listed groups. -/
theorem foldl_recentreStep_of_not_mem (A : Arithmetic) (us : List Nat) (w : World) (x : Nat)
    (hx : x ∉ us) : (us.foldl (recentreStep A) w).ActorLocation x = w.ActorLocation x := by
  induction us generalizing w with
  | nil => rfl
  | cons u t ih =>
    rw [List.mem_cons, not_or] at hx
    rw [List.foldl_cons, ih _ hx.2, recentreStep_ActorLocation_of_ne A w u x hx.1]

theorem recentreStep_of_nil (A : Arithmetic) (w : World) (g : Nat)
    (hg : w.GroupActors g = []) : recentreStep A w g = w := by
  unfold recentreStep
  simp [hg]

/-- The recentring loop leaves a group without members where it is. -/
theorem foldl_recentreStep_of_nil (A : Arithmetic) (us : List Nat) (w : World) (x : Nat)
    (hx : x ∉ us ∨ w.GroupActors x = []) :
    (us.foldl (recentreStep A) w).ActorLocation x = w.ActorLocation x := by
  induction us generalizing w with
  | nil => rfl
  | cons u t ih =>
    rw [List.foldl_cons]
    by_cases hxu : x = u
    · subst hxu
      rcases hx with h | h
      · exact absurd (List.mem_cons_self _ _) h
      · rw [recentreStep_of_nil A w x h]
        exact ih w (Or.inr h)
    · rw [ih (recentreStep A w u) (hx.imp (fun h hm => h (List.mem_cons_of_mem u hm))
        (fun h => by rw [recentreStep_GroupActors]; exact h)),
        recentreStep_ActorLocation_of_ne A w u x hxu]

/-- After the recentring loop a listed group with members, none of which is
itself a listed group, sits at the centre computed from the final member
locations. -/
theorem foldl_recentreStep_of_mem (A : Arithmetic) (us : List Nat) (w : World) (u : Nat)
    (hu : u ∈ us) (hne : w.GroupActors u ≠ []) (hm : ∀ m ∈ w.GroupActors u, m ∉ us) :
    (us.foldl (recentreStep A) w).ActorLocation u =
      (sumLocations A (us.foldl (recentreStep A) w) (w.GroupActors u)).divScalar A
        ((w.GroupActors u).length : ℚ) := by
  induction us generalizing w with
  | nil => cases hu
  | cons v t ih =>
    rw [List.foldl_cons]
    have hmt : ∀ m ∈ w.GroupActors u, m ∉ t := fun m hmem hmt =>
      hm m hmem (List.mem_cons_of_mem v hmt)
    have hmv : ∀ m ∈ w.GroupActors u, m ≠ v := fun m hmem hmv =>
      hm m hmem (hmv ▸ List.mem_cons_self v t)
    have hG : (recentreStep A w v).GroupActors = w.GroupActors := recentreStep_GroupActors A w v
    by_cases hut : u ∈ t
    · have := ih (recentreStep A w v) hut (by rw [hG]; exact hne) (by rw [hG]; exact hmt)
      rw [hG] at this
      exact this
    · have huv : u = v := by
        rcases List.mem_cons.mp hu with h | h
        · exact h
        · exact absurd h hut
      subst huv
      rw [foldl_recentreStep_of_not_mem A t _ u hut, recentreStep_ActorLocation_self A w u hne]
      congr 1
      apply sumLocations_congr
      intro m hmem
      rw [foldl_recentreStep_of_not_mem A t _ m (hmt m hmem),
        recentreStep_ActorLocation_of_ne A w u m (hmv m hmem)]

/-! ## TeleportActors: where everything ends -/

theorem TeleportActors_of_nil (A : Arithmetic) (w : World) (L : FVector)
    (h : (collect w).ActorsToMove = []) : TeleportActors A w L = w := by
  unfold TeleportActors
  simp [h]

/-- The state just before the recentring loop: the locked group roots and the
actors to move sit at the snapped location plus their offsets from the pivot. -/
theorem TeleportActors_ActorLocation (A : Arithmetic) (w : World) (L : FVector)
    (hne : (collect w).ActorsToMove ≠ []) :
    ∃ w5 : World, w5.GroupActors = w.GroupActors ∧
      w5.ActorLocation = (fun x =>
        if x ∈ (collect w).LockedGroups ∨ x ∈ (collect w).ActorsToMove then
          FVector.add A (SnapLocationToGrid A w L)
            (FVector.sub A (w.ActorLocation x) w.PivotLocation)
        else w.ActorLocation x) ∧
      (TeleportActors A w L).ActorLocation =
        ((collect w).UnlockedGroups.foldl (recentreStep A) w5).ActorLocation ∧
      sumLocations A (TeleportActors A w L) =
        sumLocations A ((collect w).UnlockedGroups.foldl (recentreStep A) w5) := by
  have hlen : ¬ (collect w).ActorsToMove.length = 0 := by
    rw [List.length_eq_zero]
    exact hne
  have hA := foldl_moveActorStep A (SnapLocationToGrid A w L)
    (fun a => FVector.sub A (w.ActorLocation a) w.PivotLocation) (collect w).ActorsToMove []
    ((collect w).UnlockedGroups.foldl Modify ((collect w).LockedGroups.foldl Modify
      { w with Transactions := w.Transactions + 1 }))
  have hB := foldl_moveLockedGroupStep A (SnapLocationToGrid A w L)
    (fun a => FVector.sub A (w.ActorLocation a) w.PivotLocation) (collect w).LockedGroups []
    ((collect w).ActorsToMove.foldl (moveActorStep A (SnapLocationToGrid A w L)
      ((collect w).ActorsToMove.map
        (fun a => FVector.sub A (w.ActorLocation a) w.PivotLocation)))
      ((collect w).UnlockedGroups.foldl Modify ((collect w).LockedGroups.foldl Modify
        { w with Transactions := w.Transactions + 1 }), 0)).1
  simp only [List.nil_append, List.length_nil] at hA hB
  obtain ⟨a1, a2, _⟩ := hA
  obtain ⟨b1, b2, _⟩ := hB
  have hloc : (TeleportActors A w L).ActorLocation =
      ((collect w).UnlockedGroups.foldl (recentreStep A)
        ((collect w).LockedGroups.foldl (moveLockedGroupStep A (SnapLocationToGrid A w L)
          ((collect w).LockedGroups.map
            (fun a => FVector.sub A (w.ActorLocation a) w.PivotLocation)))
          (((collect w).ActorsToMove.foldl (moveActorStep A (SnapLocationToGrid A w L)
            ((collect w).ActorsToMove.map
              (fun a => FVector.sub A (w.ActorLocation a) w.PivotLocation)))
            ((collect w).UnlockedGroups.foldl Modify ((collect w).LockedGroups.foldl Modify
              { w with Transactions := w.Transactions + 1 }), 0)).1, 0)).1).ActorLocation := by
    unfold TeleportActors
    dsimp only
    rw [if_neg hlen]
    split <;> rfl
  refine ⟨((collect w).LockedGroups.foldl (moveLockedGroupStep A (SnapLocationToGrid A w L)
      ((collect w).LockedGroups.map
        (fun a => FVector.sub A (w.ActorLocation a) w.PivotLocation)))
      (((collect w).ActorsToMove.foldl (moveActorStep A (SnapLocationToGrid A w L)
        ((collect w).ActorsToMove.map
          (fun a => FVector.sub A (w.ActorLocation a) w.PivotLocation)))
        ((collect w).UnlockedGroups.foldl Modify ((collect w).LockedGroups.foldl Modify
          { w with Transactions := w.Transactions + 1 }), 0)).1, 0)).1, ?_, ?_, hloc, ?_⟩
  · rw [b2, a2, foldl_Modify_GroupActors, foldl_Modify_GroupActors]
  · rw [b1, a1, foldl_Modify_ActorLocation, foldl_Modify_ActorLocation]
    funext x
    by_cases h1 : x ∈ (collect w).LockedGroups
    · simp [h1]
    · by_cases h2 : x ∈ (collect w).ActorsToMove
      · simp [h1, h2]
      · simp [h1, h2]
  · funext l
    exact sumLocations_congr A _ _ l (fun m _ => by rw [hloc])

theorem not_mem_UnlockedGroups_of_locked (w : World) (G : Nat) (h : w.IsLocked G = true) :
    G ∉ (collect w).UnlockedGroups := by
  rw [mem_UnlockedGroups_iff]
  rintro ⟨_, h2⟩
  rw [h] at h2
  cases h2

/-- An actor to move that is not a recentred group root ends at the snapped
location plus its offset from the pivot. -/
theorem TeleportActors_loc_of_mem (A : Arithmetic) (w : World) (L : FVector) (a : Nat)
    (ha : a ∈ (collect w).ActorsToMove) (hu : a ∉ (collect w).UnlockedGroups) :
    (TeleportActors A w L).ActorLocation a =
      FVector.add A (SnapLocationToGrid A w L)
        (FVector.sub A (w.ActorLocation a) w.PivotLocation) := by
  have hne : (collect w).ActorsToMove ≠ [] := List.ne_nil_of_mem ha
  obtain ⟨w5, _, h2, h3, _⟩ := TeleportActors_ActorLocation A w L hne
  rw [h3, foldl_recentreStep_of_not_mem A _ _ _ hu, h2]
  simp [ha]

/-- An actor to move that is a recentred group root without members ends at
the snapped location plus its offset from the pivot as well. -/
theorem TeleportActors_loc_of_mem_nil (A : Arithmetic) (w : World) (L : FVector) (a : Nat)
    (ha : a ∈ (collect w).ActorsToMove)
    (hu : a ∉ (collect w).UnlockedGroups ∨ w.GroupActors a = []) :
    (TeleportActors A w L).ActorLocation a =
      FVector.add A (SnapLocationToGrid A w L)
        (FVector.sub A (w.ActorLocation a) w.PivotLocation) := by
  have hne : (collect w).ActorsToMove ≠ [] := List.ne_nil_of_mem ha
  obtain ⟨w5, h1, h2, h3, _⟩ := TeleportActors_ActorLocation A w L hne
  rw [h3, foldl_recentreStep_of_nil A _ _ _ (hu.imp id (fun h => by rw [h1]; exact h)), h2]
  simp [ha]

/-- A collected locked group root ends at the snapped location plus its offset
from the pivot, as soon as there is an actor to move. -/
theorem TeleportActors_loc_of_locked (A : Arithmetic) (w : World) (L : FVector) (G : Nat)
    (hG : G ∈ (collect w).LockedGroups) (hne : (collect w).ActorsToMove ≠ []) :
    (TeleportActors A w L).ActorLocation G =
      FVector.add A (SnapLocationToGrid A w L)
        (FVector.sub A (w.ActorLocation G) w.PivotLocation) := by
  have hu : G ∉ (collect w).UnlockedGroups :=
    not_mem_UnlockedGroups_of_locked w G ((mem_LockedGroups_iff w G).mp hG).2
  obtain ⟨w5, _, h2, h3, _⟩ := TeleportActors_ActorLocation A w L hne
  rw [h3, foldl_recentreStep_of_not_mem A _ _ _ hu, h2]
  simp [hG]

/-- Whatever is neither an actor to move nor a collected group root stays. -/
theorem TeleportActors_loc_of_not_mem (A : Arithmetic) (w : World) (L : FVector) (x : Nat)
    (ha : x ∉ (collect w).ActorsToMove) (hl : x ∉ (collect w).LockedGroups)
    (hu : x ∉ (collect w).UnlockedGroups) :
    (TeleportActors A w L).ActorLocation x = w.ActorLocation x := by
  by_cases hne : (collect w).ActorsToMove = []
  · rw [TeleportActors_of_nil A w L hne]
  · obtain ⟨w5, _, h2, h3, _⟩ := TeleportActors_ActorLocation A w L hne
    rw [h3, foldl_recentreStep_of_not_mem A _ _ _ hu, h2]
    simp [ha, hl]

/-- A collected unlocked group root with members, none of them a collected
unlocked group root, ends at the centre the code computes from the final
member locations: their sum divided by their number. -/
theorem TeleportActors_loc_of_unlocked (A : Arithmetic) (w : World) (L : FVector) (U : Nat)
    (hU : U ∈ (collect w).UnlockedGroups) (hne : w.GroupActors U ≠ [])
    (hm : ∀ m ∈ w.GroupActors U, m ∉ (collect w).UnlockedGroups) :
    (TeleportActors A w L).ActorLocation U =
      (sumLocations A (TeleportActors A w L) (w.GroupActors U)).divScalar A
        ((w.GroupActors U).length : ℚ) := by
  have hA : (collect w).ActorsToMove ≠ [] := by
    obtain ⟨⟨s, hs, hr⟩, hl⟩ := (mem_UnlockedGroups_iff w U).mp hU
    have : s ∈ (collect w).ActorsToMove :=
      (mem_ActorsToMove_iff w s).mpr (Or.inr (Or.inl ⟨hs, U, hr, hl⟩))
    exact List.ne_nil_of_mem this
  obtain ⟨w5, h1, _, h3, h4⟩ := TeleportActors_ActorLocation A w L hA
  rw [h3, h4]
  have := foldl_recentreStep_of_mem A (collect w).UnlockedGroups w5 U hU
    (by rw [h1]; exact hne) (by rw [h1]; exact hm)
  rw [h1] at this
  exact this

theorem collect_of_nil (w : World) (h : w.SelectedActors = []) :
    (collect w).ActorsToMove = [] := by
  unfold collect
  rw [h]
  rfl

/-! ## Spline-point teleport: lemmas -/

/-- The loop over the selected keys touches the spline points only. -/
theorem moveSelectedKeys_eq (A : Arithmetic) (keys : List ℤ) (w : World) (c : Nat) (off : FVector) :
    moveSelectedKeys A w c off keys =
      { w with SplinePointLocation := (moveSelectedKeys A w c off keys).SplinePointLocation } := by
  unfold moveSelectedKeys
  induction keys generalizing w with
  | nil => rfl
  | cons k t ih =>
    rw [List.foldl_cons]
    have h := ih (SetLocationAtSplinePoint w c k (FVector.add A (GetLocationAtSplinePoint w c k) off))
    rw [h]
    rfl

theorem moveSelectedKeys_of_not_mem (A : Arithmetic) (keys : List ℤ) (w : World) (c : Nat) (off : FVector)
    (c1 : Nat) (k : ℤ) (h : c1 ≠ c ∨ k ∉ keys) :
    (moveSelectedKeys A w c off keys).SplinePointLocation c1 k = w.SplinePointLocation c1 k := by
  unfold moveSelectedKeys
  induction keys generalizing w with
  | nil => rfl
  | cons j t ih =>
    rw [List.foldl_cons]
    have ht : c1 ≠ c ∨ k ∉ t := by
      rcases h with h | h
      · exact Or.inl h
      · exact Or.inr (fun hk => h (List.mem_cons_of_mem j hk))
    rw [ih _ ht]
    have hj : ¬ (c1 = c ∧ k = j) := by
      rintro ⟨h1, h2⟩
      rcases h with h | h
      · exact h h1
      · exact h (h2 ▸ List.mem_cons_self j t)
    simp [SetLocationAtSplinePoint, hj]

/-- Every selected key, listed once, is moved by the offset exactly once. -/
theorem moveSelectedKeys_of_mem (A : Arithmetic) (keys : List ℤ) (w : World) (c : Nat) (off : FVector)
    (k : ℤ) (hk : k ∈ keys) (hnd : keys.Nodup) :
    (moveSelectedKeys A w c off keys).SplinePointLocation c k =
      FVector.add A (w.SplinePointLocation c k) off := by
  induction keys generalizing w with
  | nil => cases hk
  | cons j t ih =>
    rw [List.nodup_cons] at hnd
    have hfold : moveSelectedKeys A w c off (j :: t) =
        moveSelectedKeys A (SetLocationAtSplinePoint w c j (FVector.add A (GetLocationAtSplinePoint w c j) off))
          c off t := rfl
    rw [hfold]
    rcases List.mem_cons.mp hk with h | h
    · subst h
      rw [moveSelectedKeys_of_not_mem A t _ c off c k (Or.inr hnd.1)]
      simp [SetLocationAtSplinePoint, GetLocationAtSplinePoint]
    · rw [ih _ h hnd.2]
      have hne : k ≠ j := fun e => hnd.1 (e ▸ h)
      simp [SetLocationAtSplinePoint, hne]

theorem splineLoop_skip (A : Arithmetic) (w : World) (S : FVector) (vc : FLevelEditorViewportClient)
    (x : UActorComponent) (rest : List UActorComponent) (hx : ¬ HasSelectedPoint w x) :
    splineLoop A w S vc (x :: rest) = splineLoop A w S vc rest := by
  unfold HasSelectedPoint at hx
  rw [splineLoop]
  cases hs : x.IsSpline with
  | false => simp
  | true =>
    cases hv : w.FindComponentVisualizer x.Class with
    | none => simp
    | some v =>
      have hnil : v.SelectedKeys = [] := by
        by_contra hne
        exact hx ⟨hs, v, hv, hne⟩
      simp [hnil]

theorem splineLoop_hit (A : Arithmetic) (w : World) (S : FVector) (vc : FLevelEditorViewportClient)
    (c : UActorComponent) (rest : List UActorComponent) (v : FSplineComponentVisualizer)
    (hs : c.IsSpline = true) (hv : w.FindComponentVisualizer c.Class = some v)
    (hk : v.SelectedKeys ≠ []) :
    splineLoop A w S vc (c :: rest) = (true, splineMoved A w S vc c v) := by
  have hlen : v.SelectedKeys.length > 0 := List.length_pos.mpr hk
  rw [splineLoop]
  simp only [hs, hv, hlen, if_true]
  rfl

theorem splineLoop_first (A : Arithmetic) (w : World) (S : FVector) (vc : FLevelEditorViewportClient)
    (pre post : List UActorComponent) (c : UActorComponent) (v : FSplineComponentVisualizer)
    (hpre : ∀ x ∈ pre, ¬ HasSelectedPoint w x)
    (hs : c.IsSpline = true) (hv : w.FindComponentVisualizer c.Class = some v)
    (hk : v.SelectedKeys ≠ []) :
    splineLoop A w S vc (pre ++ c :: post) = (true, splineMoved A w S vc c v) := by
  induction pre with
  | nil => exact splineLoop_hit A w S vc c post v hs hv hk
  | cons x t ih =>
    rw [List.cons_append, splineLoop_skip A w S vc x _ (hpre x (List.mem_cons_self x t))]
    exact ih (fun y hy => hpre y (List.mem_cons_of_mem x hy))

/-- The loop either handles nothing and leaves the state alone, or moves the
keys of one selected component that has a selected point. -/
theorem splineLoop_cases (A : Arithmetic) (w : World) (S : FVector) (vc : FLevelEditorViewportClient)
    (comps : List UActorComponent) :
    ((∀ x ∈ comps, ¬ HasSelectedPoint w x) ∧ splineLoop A w S vc comps = (false, w)) ∨
      ∃ c ∈ comps, ∃ v, HasSelectedPoint w c ∧
        splineLoop A w S vc comps = (true, splineMoved A w S vc c v) := by
  induction comps with
  | nil =>
    left
    exact ⟨fun x hx => absurd hx (List.not_mem_nil x), rfl⟩
  | cons x t ih =>
    by_cases hx : HasSelectedPoint w x
    · right
      obtain ⟨hs, v, hv, hk⟩ := hx
      exact ⟨x, List.mem_cons_self x t, v, ⟨hs, v, hv, hk⟩, splineLoop_hit A w S vc x t v hs hv hk⟩
    · rw [splineLoop_skip A w S vc x t hx]
      rcases ih with ⟨h1, h2⟩ | ⟨c, hc, v, h1, h2⟩
      · left
        refine ⟨?_, h2⟩
        intro y hy
        rcases List.mem_cons.mp hy with e | e
        · rw [e]
          exact hx
        · exact h1 y e
      · right
        exact ⟨c, List.mem_cons_of_mem x hc, v, h1, h2⟩

/-- The handler's move leaves every actor field of the state alone. -/
theorem splineMoved_eq (A : Arithmetic) (w : World) (S : FVector) (vc : FLevelEditorViewportClient)
    (c : UActorComponent) (v : FSplineComponentVisualizer) :
    splineMoved A w S vc c v =
      { w with
        Transactions := w.Transactions + 1
        ModifiedComponents := c.Id :: w.ModifiedComponents
        UpdatedSplines := c.Id :: w.UpdatedSplines
        SplinePointLocation := (splineMoved A w S vc c v).SplinePointLocation } := by
  unfold splineMoved
  rw [moveSelectedKeys_eq]
  rfl

theorem TeleportSelectedSplinePoint_eq (A : Arithmetic) (w : World) (L : FVector)
    (comps : List UActorComponent) (vc : FLevelEditorViewportClient)
    (hE : w.GEditor = true) (hC : w.SelectedComponents = some comps)
    (hV : w.ViewportClient = some vc) :
    TeleportSelectedSplinePoint A w L true = splineLoop A w (SnapLocationToGrid A w L) vc comps := by
  simp [TeleportSelectedSplinePoint, hE, hC, hV]

/-- The handler either reports not handled and leaves the state alone, or
reports handled after moving the keys of one selected component. -/
theorem TeleportSelectedSplinePoint_cases (A : Arithmetic) (w : World) (L : FVector) (M : Bool) :
    TeleportSelectedSplinePoint A w L M = (false, w) ∨
      ∃ comps vc c v, w.GEditor = true ∧ w.SelectedComponents = some comps ∧ M = true ∧
        w.ViewportClient = some vc ∧ c ∈ comps ∧ HasSelectedPoint w c ∧
        TeleportSelectedSplinePoint A w L M =
          (true, splineMoved A w (SnapLocationToGrid A w L) vc c v) := by
  cases hE : w.GEditor with
  | false =>
    left
    simp [TeleportSelectedSplinePoint, hE]
  | true =>
    cases hC : w.SelectedComponents with
    | none =>
      left
      simp [TeleportSelectedSplinePoint, hE, hC]
    | some comps =>
      cases M with
      | false =>
        left
        simp [TeleportSelectedSplinePoint, hE, hC]
      | true =>
        cases hV : w.ViewportClient with
        | none =>
          left
          simp [TeleportSelectedSplinePoint, hE, hC, hV]
        | some vc =>
          rw [TeleportSelectedSplinePoint_eq A w L comps vc hE hC hV]
          rcases splineLoop_cases A w (SnapLocationToGrid A w L) vc comps with
            ⟨_, h2⟩ | ⟨c, hc, v, h1, h2⟩
          · exact Or.inl h2
          · exact Or.inr ⟨comps, vc, c, v, rfl, rfl, rfl, rfl, hc, h1, h2⟩

/-! ## Dispatch: lemmas -/

theorem GetTeleportLocation_success (w : World) (o : Option FLevelEditorViewportClient)
    (h : (GetTeleportLocation w o).2 = true) : ∃ vc, o = some vc := by
  cases o with
  | none => simp [GetTeleportLocation] at h
  | some vc => exact ⟨vc, rfl⟩

theorem foldl_preserves {σ β α : Type} (P : σ → α) (f : σ → β → σ)
    (hf : ∀ s b, P (f s b) = P s) (l : List β) (s : σ) : P (l.foldl f s) = P s := by
  induction l generalizing s with
  | nil => rfl
  | cons b t ih => rw [List.foldl_cons, ih, hf]

theorem recentreStep_ViewportClient (A : Arithmetic) (w : World) (g : Nat) :
    (recentreStep A w g).ViewportClient = w.ViewportClient := by
  unfold recentreStep
  dsimp only
  split <;> rfl

theorem foldl_Modify_ViewportClient (l : List Nat) (w : World) :
    (l.foldl Modify w).ViewportClient = w.ViewportClient :=
  foldl_preserves (fun x : World => x.ViewportClient) Modify (fun _ _ => rfl) l w

theorem foldl_recentreStep_ViewportClient (A : Arithmetic) (l : List Nat) (w : World) :
    (l.foldl (recentreStep A) w).ViewportClient = w.ViewportClient :=
  foldl_preserves (fun x : World => x.ViewportClient) (recentreStep A)
    (recentreStep_ViewportClient A) l w

theorem foldl_moveActorStep_ViewportClient (A : Arithmetic) (S : FVector) (offs : List FVector)
    (l : List Nat) (s : World × Nat) :
    (l.foldl (moveActorStep A S offs) s).1.ViewportClient = s.1.ViewportClient :=
  foldl_preserves (fun x : World × Nat => x.1.ViewportClient) (moveActorStep A S offs)
    (fun _ _ => rfl) l s

theorem foldl_moveLockedGroupStep_ViewportClient (A : Arithmetic) (S : FVector) (offs : List FVector)
    (l : List Nat) (s : World × Nat) :
    (l.foldl (moveLockedGroupStep A S offs) s).1.ViewportClient = s.1.ViewportClient :=
  foldl_preserves (fun x : World × Nat => x.1.ViewportClient) (moveLockedGroupStep A S offs)
    (fun _ _ => rfl) l s

/-- TeleportActors leaves the viewport client alone. -/
theorem TeleportActors_ViewportClient (A : Arithmetic) (w : World) (L : FVector) :
    (TeleportActors A w L).ViewportClient = w.ViewportClient := by
  unfold TeleportActors
  dsimp only
  split
  · rfl
  · have h6 : ∀ w6 : World, (if w6.GUnrealEd = true then UpdatePivotLocationForSelection w6
        else w6).ViewportClient = w6.ViewportClient := by
      intro w6
      split <;> rfl
    rw [h6, foldl_recentreStep_ViewportClient, foldl_moveLockedGroupStep_ViewportClient,
      foldl_moveActorStep_ViewportClient, foldl_Modify_ViewportClient,
      foldl_Modify_ViewportClient]

theorem OnTeleportHotkeyPressed_eq (A : Arithmetic) (w : World) (L : FVector)
    (hE : w.GEditor = true) (hA : w.ActiveViewport = true)
    (hres : GetTeleportLocation w w.ViewportClient = (L, true)) :
    OnTeleportHotkeyPressed A w =
      if (TeleportSelectedSplinePoint A w L true).1 = true then
        RedrawLevelEditingViewports (TeleportSelectedSplinePoint A w L true).2
      else
        NoteSelectionChange (RedrawLevelEditingViewports (Invalidate
          (TeleportActors A (TeleportSelectedSplinePoint A w L true).2 L))) := by
  unfold OnTeleportHotkeyPressed
  simp only [hE, hA, hres, Bool.not_true, Bool.or_self, Bool.false_eq_true, if_false]
  split
  · rfl
  · rename_i hh
    have hu : (TeleportSelectedSplinePoint A w L true).2 = w := by
      rcases TeleportSelectedSplinePoint_cases A w L true with h | ⟨_, _, _, _, _, _, _, _, _, _, h⟩
      · rw [h]
      · rw [h] at hh
        exact absurd rfl hh
    obtain ⟨vc, hvc⟩ := GetTeleportLocation_success w w.ViewportClient (by rw [hres])
    rw [hu]
    have : (TeleportActors A w L).ViewportClient = some vc := by
      rw [TeleportActors_ViewportClient, hvc]
    simp only [this]

/-! ## Grid snap in binary64: a far coordinate on the grid 0.1f -/

theorem fineGrid_snap_X (p : FVector) :
    (SnapLocationToGrid Arithmetic.double fineGrid p).X =
      Arithmetic.double.mul
        (RoundToFloat Arithmetic.double (Arithmetic.double.div p.X gridTenth)) gridTenth := by
  rw [SnapLocationToGrid_of_on _ fineGrid p rfl rfl (by norm_num [fineGrid, gridTenth])]
  rfl

theorem RoundToFloat_double_of_half (F : ℚ) (n : ℤ) (hF : F + 1 / 2 = n)
    (h1 : -(2 ^ 53) < n) (h2 : n < 2 ^ 53) : RoundToFloat Arithmetic.double F = n := by
  unfold RoundToFloat
  rw [Arithmetic.double_add, hF, roundDouble_intCast n h1 h2, Int.floor_intCast]

theorem farCoordinate_div :
    Arithmetic.double.div farCoordinate gridTenth = 8772223003095537 / 2 := by
  unfold farCoordinate gridTenth
  rw [Arithmetic.double_div, roundDouble_eq_of_pos _ 51 8772223003095537 (by norm_num)
    (by norm_num) (by norm_num) (by norm_num) (by norm_num [abs_lt])]
  norm_num

theorem farCoordinate_round :
    RoundToFloat Arithmetic.double (8772223003095537 / 2) = 4386111501547769 := by
  rw [RoundToFloat_double_of_half _ 4386111501547769 (by norm_num) (by norm_num)
    (by norm_num)]
  norm_num

theorem farCoordinate_mul :
    Arithmetic.double.mul 4386111501547769 gridTenth = 3508889253524739 / 8 := by
  unfold gridTenth
  rw [Arithmetic.double_mul, roundDouble_eq_of_pos _ 48 7017778507049478 (by norm_num)
    (by norm_num) (by norm_num) (by norm_num) (by norm_num [abs_lt])]
  norm_num

theorem snappedCoordinate_div :
    Arithmetic.double.div (3508889253524739 / 8) gridTenth = 8772223003095539 / 2 := by
  unfold gridTenth
  rw [Arithmetic.double_div, roundDouble_eq_of_pos _ 51 8772223003095539 (by norm_num)
    (by norm_num) (by norm_num) (by norm_num) (by norm_num [abs_lt])]
  norm_num

theorem snappedCoordinate_round :
    RoundToFloat Arithmetic.double (8772223003095539 / 2) = 4386111501547770 := by
  rw [RoundToFloat_double_of_half _ 4386111501547770 (by norm_num) (by norm_num)
    (by norm_num)]
  norm_num

theorem snappedCoordinate_mul :
    Arithmetic.double.mul 4386111501547770 gridTenth = 7017778507049479 / 16 := by
  unfold gridTenth
  rw [Arithmetic.double_mul, roundDouble_eq_of_pos _ 48 7017778507049479 (by norm_num)
    (by norm_num) (by norm_num) (by norm_num) (by norm_num [abs_lt])]
  norm_num

/-- The far coordinate snaps to 438611156690592.375 on the grid 0.1f. -/
theorem fineGrid_snap_once :
    (SnapLocationToGrid Arithmetic.double fineGrid ⟨farCoordinate, 0, 0⟩).X =
      3508889253524739 / 8 := by
  rw [fineGrid_snap_X]
  show Arithmetic.double.mul
    (RoundToFloat Arithmetic.double (Arithmetic.double.div farCoordinate gridTenth))
    gridTenth = _
  rw [farCoordinate_div, farCoordinate_round, farCoordinate_mul]

/-- The snapped point snaps again, to 438611156690592.4375. -/
theorem fineGrid_snap_twice :
    (SnapLocationToGrid Arithmetic.double fineGrid
      (SnapLocationToGrid Arithmetic.double fineGrid ⟨farCoordinate, 0, 0⟩)).X =
      7017778507049479 / 16 := by
  rw [fineGrid_snap_X, fineGrid_snap_once, snappedCoordinate_div, snappedCoordinate_round,
    snappedCoordinate_mul]

/-! ## Grid snap: the claims -/

/-- C7. SnapLocationToGrid returns its input unchanged, in all three
coordinates, whenever grid-snap mode is off or the grid size is at most zero,
whatever the arithmetic. -/
theorem SnapLocationToGrid_unchanged (A : Arithmetic) (w : World) (p : FVector)
    (h : w.LocationGridSnap_IsChecked = false ∨ w.GridSize ≤ 0) :
    SnapLocationToGrid A w p = p ∧
      (SnapLocationToGrid A w p).X = p.X ∧ (SnapLocationToGrid A w p).Y = p.Y ∧
      (SnapLocationToGrid A w p).Z = p.Z := by
  have e : SnapLocationToGrid A w p = p := by
    apply SnapLocationToGrid_of_off
    rcases h with h | h
    · exact Or.inl h
    · exact Or.inr (Or.inr h)
  rw [e]
  exact ⟨rfl, rfl, rfl, rfl⟩

theorem SnapLocationToGrid_unchanged_witness :
    SnapLocationToGrid Arithmetic.double threeActors ⟨12, 7, 3⟩ = ⟨12, 7, 3⟩ ∧
      SnapLocationToGrid Arithmetic.double { groupedScene with GridSize := 0 } ⟨12, 7, 3⟩ =
        ⟨12, 7, 3⟩ :=
  ⟨(SnapLocationToGrid_unchanged Arithmetic.double threeActors ⟨12, 7, 3⟩ (Or.inl rfl)).1,
   (SnapLocationToGrid_unchanged Arithmetic.double { groupedScene with GridSize := 0 }
      ⟨12, 7, 3⟩ (Or.inr (le_refl (0 : ℚ)))).1⟩

/-- C8. In exact arithmetic, with grid-snap mode on, an editor present and grid
size g > 0, every coordinate of SnapLocationToGrid depends on the same
coordinate of the input only, is an integer multiple of g, lies within g/2 of
the input coordinate and is a multiple of g nearest to it. -/
theorem SnapLocationToGrid_nearest_multiple (w : World)
    (hs : w.LocationGridSnap_IsChecked = true) (he : w.GEditor = true)
    (hg : 0 < w.GridSize) :
    (∀ p : FVector,
      NearestMultiple w.GridSize p.X (SnapLocationToGrid Arithmetic.rational w p).X ∧
      NearestMultiple w.GridSize p.Y (SnapLocationToGrid Arithmetic.rational w p).Y ∧
      NearestMultiple w.GridSize p.Z (SnapLocationToGrid Arithmetic.rational w p).Z) ∧
    (∀ p q : FVector,
      (p.X = q.X → (SnapLocationToGrid Arithmetic.rational w p).X =
        (SnapLocationToGrid Arithmetic.rational w q).X) ∧
      (p.Y = q.Y → (SnapLocationToGrid Arithmetic.rational w p).Y =
        (SnapLocationToGrid Arithmetic.rational w q).Y) ∧
      (p.Z = q.Z → (SnapLocationToGrid Arithmetic.rational w p).Z =
        (SnapLocationToGrid Arithmetic.rational w q).Z)) := by
  constructor
  · intro p
    rw [SnapLocationToGrid_of_on _ w p hs he hg]
    exact ⟨snapCoordinate_nearest _ _ hg, snapCoordinate_nearest _ _ hg,
      snapCoordinate_nearest _ _ hg⟩
  · intro p q
    rw [SnapLocationToGrid_of_on _ w p hs he hg, SnapLocationToGrid_of_on _ w q hs he hg]
    refine ⟨?_, ?_, ?_⟩ <;> intro h <;> simp only [h]

theorem SnapLocationToGrid_nearest_multiple_witness :
    NearestMultiple 10 12 (SnapLocationToGrid Arithmetic.rational groupedScene ⟨12, 7, -5⟩).X ∧
      NearestMultiple 10 7
        (SnapLocationToGrid Arithmetic.rational groupedScene ⟨12, 7, -5⟩).Y ∧
      NearestMultiple 10 (-5)
        (SnapLocationToGrid Arithmetic.rational groupedScene ⟨12, 7, -5⟩).Z :=
  (SnapLocationToGrid_nearest_multiple groupedScene rfl rfl
    (by norm_num [groupedScene, blankWorld])).1 ⟨12, 7, -5⟩

/-! ## Actor teleport: concrete scenes -/

theorem groupedScene_snap :
    SnapLocationToGrid Arithmetic.rational groupedScene ⟨12, 7, 0⟩ = ⟨10, 10, 0⟩ := by
  rw [SnapLocationToGrid_of_on _ groupedScene _ rfl rfl (by norm_num [groupedScene, blankWorld])]
  have h1 : ⌊(12 : ℚ) / 10 + 1 / 2⌋ = 1 := by
    rw [Int.floor_eq_iff]
    norm_num
  have h2 : ⌊(7 : ℚ) / 10 + 1 / 2⌋ = 1 := by
    rw [Int.floor_eq_iff]
    norm_num
  have h3 : ⌊(0 : ℚ) / 10 + 1 / 2⌋ = 0 := by
    rw [Int.floor_eq_iff]
    norm_num
  show (⟨RoundToFloat Arithmetic.rational ((12 : ℚ) / 10) * 10,
    RoundToFloat Arithmetic.rational ((7 : ℚ) / 10) * 10,
    RoundToFloat Arithmetic.rational ((0 : ℚ) / 10) * 10⟩ : FVector) = ⟨10, 10, 0⟩
  rw [RoundToFloat_rational, RoundToFloat_rational, RoundToFloat_rational, h1, h2, h3]
  norm_num

theorem FVector.add_sub_add_left (S a b : FVector) :
    FVector.sub Arithmetic.rational (FVector.add Arithmetic.rational S a)
        (FVector.add Arithmetic.rational S b) =
      FVector.sub Arithmetic.rational a b := by
  ext <;> simp

theorem FVector.sub_sub_sub_right (a b R : FVector) :
    FVector.sub Arithmetic.rational (FVector.sub Arithmetic.rational a R)
        (FVector.sub Arithmetic.rational b R) =
      FVector.sub Arithmetic.rational a b := by
  ext <;> simp

/-! ## Actor teleport: the claims -/

/-- C6. TeleportActors with an empty selection is a no-op for every target and
every world state: the state after the call is the state before it, so no
location changes, nothing is marked modified or dirty, and the number of
transactions opened is the same. -/
theorem TeleportActors_empty_selection (A : Arithmetic) (w : World) (L : FVector)
    (h : w.SelectedActors = []) :
    TeleportActors A w L = w ∧
      (TeleportActors A w L).ActorLocation = w.ActorLocation ∧
      (TeleportActors A w L).Modified = w.Modified ∧
      (TeleportActors A w L).Dirty = w.Dirty ∧
      (TeleportActors A w L).Transactions = w.Transactions := by
  have e : TeleportActors A w L = w := TeleportActors_of_nil A w L (collect_of_nil w h)
  rw [e]
  exact ⟨rfl, rfl, rfl, rfl, rfl⟩

theorem TeleportActors_empty_selection_witness :
    TeleportActors Arithmetic.double blankWorld ⟨5, 5, 0⟩ = blankWorld :=
  (TeleportActors_empty_selection Arithmetic.double blankWorld ⟨5, 5, 0⟩ rfl).1

theorem tenth_sub_threeTenths :
    Arithmetic.double.sub tenth threeTenths = -(7205759403792793 / 36028797018963968) := by
  unfold tenth threeTenths
  rw [Arithmetic.double_sub, roundDouble_eq_of_neg _ (-3) (-7205759403792793) (by norm_num)
    (by norm_num) (by norm_num) (by norm_num) (by norm_num [abs_lt])]
  norm_num

theorem sevenTenths_add_first :
    Arithmetic.double.add sevenTenths (-(7205759403792793 / 36028797018963968)) = 1 / 2 := by
  unfold sevenTenths
  rw [Arithmetic.double_add, roundDouble_eq_of_pos_tie _ (-2) 9007199254740991 (by norm_num)
    (by norm_num) (by norm_num) (by norm_num) (by norm_num) (by norm_num)]
  norm_num

theorem zero_sub_threeTenths :
    Arithmetic.double.sub 0 threeTenths = -(5404319552844595 / 18014398509481984) := by
  unfold threeTenths
  rw [Arithmetic.double_sub, roundDouble_eq_of_neg _ (-2) (-5404319552844595) (by norm_num)
    (by norm_num) (by norm_num) (by norm_num) (by norm_num [abs_lt])]
  norm_num

theorem sevenTenths_add_second :
    Arithmetic.double.add sevenTenths (-(5404319552844595 / 18014398509481984)) =
      7205759403792793 / 18014398509481984 := by
  unfold sevenTenths
  rw [Arithmetic.double_add, roundDouble_eq_of_pos _ (-2) 7205759403792793 (by norm_num)
    (by norm_num) (by norm_num) (by norm_num) (by norm_num [abs_lt])]
  norm_num

theorem fifth_sub_threeTenths :
    Arithmetic.double.sub fifth threeTenths = -(900719925474099 / 9007199254740992) := by
  unfold fifth threeTenths
  rw [Arithmetic.double_sub, roundDouble_eq_of_neg _ (-4) (-7205759403792792) (by norm_num)
    (by norm_num) (by norm_num) (by norm_num) (by norm_num [abs_lt])]
  norm_num

theorem sevenTenths_add_third :
    Arithmetic.double.add sevenTenths (-(900719925474099 / 9007199254740992)) =
      5404319552844595 / 9007199254740992 := by
  unfold sevenTenths
  rw [Arithmetic.double_add, roundDouble_eq_of_pos _ (-1) 5404319552844595 (by norm_num)
    (by norm_num) (by norm_num) (by norm_num) (by norm_num [abs_lt])]
  norm_num

/-- Actor 1 of the binary64 scene, at 0.1, ends at exactly 0.5. -/
theorem doubleScene_first :
    ((TeleportActors Arithmetic.double doubleScene ⟨sevenTenths, 0, 0⟩).ActorLocation 1).X =
      1 / 2 := by
  rw [TeleportActors_loc_of_mem Arithmetic.double doubleScene _ 1 (by decide) (by decide),
    SnapLocationToGrid_of_off _ doubleScene _ (Or.inl rfl)]
  show Arithmetic.double.add sevenTenths (Arithmetic.double.sub tenth threeTenths) = _
  rw [tenth_sub_threeTenths, sevenTenths_add_first]

/-- Actor 2 of the binary64 scene, at 0, ends at 0.39999999999999997. -/
theorem doubleScene_second :
    ((TeleportActors Arithmetic.double doubleScene ⟨sevenTenths, 0, 0⟩).ActorLocation 2).X =
      7205759403792793 / 18014398509481984 := by
  rw [TeleportActors_loc_of_mem Arithmetic.double doubleScene _ 2 (by decide) (by decide),
    SnapLocationToGrid_of_off _ doubleScene _ (Or.inl rfl)]
  show Arithmetic.double.add sevenTenths (Arithmetic.double.sub 0 threeTenths) = _
  rw [zero_sub_threeTenths, sevenTenths_add_second]

/-- The locked group root of the binary64 scene, at 0.2, ends at 0.6. -/
theorem doubleScene_root :
    ((TeleportActors Arithmetic.double doubleScene ⟨sevenTenths, 0, 0⟩).ActorLocation 10).X =
      5404319552844595 / 9007199254740992 := by
  rw [TeleportActors_loc_of_locked Arithmetic.double doubleScene _ 10 (by decide) (by decide),
    SnapLocationToGrid_of_off _ doubleScene _ (Or.inl rfl)]
  show Arithmetic.double.add sevenTenths (Arithmetic.double.sub fifth threeTenths) = _
  rw [fifth_sub_threeTenths, sevenTenths_add_third]

/-- Small whole numbers are binary64 values. -/
theorem roundDouble_small :
    roundDouble 1 = 1 ∧ roundDouble 2 = 2 ∧ roundDouble 3 = 3 ∧ roundDouble 4 = 4 ∧
      roundDouble 5 = 5 ∧ roundDouble 6 = 6 ∧ roundDouble 10 = 10 ∧ roundDouble 14 = 14 ∧
      roundDouble 15 = 15 :=
  ⟨roundDouble_of_int 1 1 (by norm_num) (by norm_num) (by norm_num),
    roundDouble_of_int 2 2 (by norm_num) (by norm_num) (by norm_num),
    roundDouble_of_int 3 3 (by norm_num) (by norm_num) (by norm_num),
    roundDouble_of_int 4 4 (by norm_num) (by norm_num) (by norm_num),
    roundDouble_of_int 5 5 (by norm_num) (by norm_num) (by norm_num),
    roundDouble_of_int 6 6 (by norm_num) (by norm_num) (by norm_num),
    roundDouble_of_int 10 10 (by norm_num) (by norm_num) (by norm_num),
    roundDouble_of_int 14 14 (by norm_num) (by norm_num) (by norm_num),
    roundDouble_of_int 15 15 (by norm_num) (by norm_num) (by norm_num)⟩

/-- In the scene with a selected group actor, member 3 ends at x = 4. -/
theorem rootSelectedScene_member :
    (TeleportActors Arithmetic.double rootSelectedScene ⟨4, 0, 0⟩).ActorLocation 3 =
      ⟨4, 0, 0⟩ := by
  obtain ⟨r1, r2, r3, r4, r5, r6, r10, r14, r15⟩ := roundDouble_small
  rw [TeleportActors_loc_of_mem Arithmetic.double rootSelectedScene _ 3 (by decide) (by decide),
    SnapLocationToGrid_of_off _ rootSelectedScene _ (Or.inl rfl)]
  ext <;> norm_num [rootSelectedScene, blankWorld, Arithmetic.double_add, Arithmetic.double_sub,
    r4]

/-- In the scene with a selected group actor, the group actor ends at the
centre x = 3 of its members. -/
theorem rootSelectedScene_root :
    ((TeleportActors Arithmetic.double rootSelectedScene ⟨4, 0, 0⟩).ActorLocation 20).X = 3 := by
  obtain ⟨r1, r2, r3, r4, r5, r6, r10, r14, r15⟩ := roundDouble_small
  have h4 : (TeleportActors Arithmetic.double rootSelectedScene ⟨4, 0, 0⟩).ActorLocation 4 =
      ⟨2, 0, 0⟩ :=
    TeleportActors_loc_of_not_mem Arithmetic.double rootSelectedScene _ 4 (by decide)
      (by decide) (by decide)
  rw [TeleportActors_loc_of_unlocked Arithmetic.double rootSelectedScene _ 20 (by decide)
    (by decide) (by decide)]
  show (FVector.divScalar Arithmetic.double
    (sumLocations Arithmetic.double (TeleportActors Arithmetic.double rootSelectedScene ⟨4, 0, 0⟩)
      [3, 4]) ((2 : ℕ) : ℚ)).X = 3
  simp only [sumLocations, List.foldl, rootSelectedScene_member, h4]
  norm_num [FVector.divScalar, FVector.ZeroVector, Arithmetic.double_add, Arithmetic.double_div,
    r4, r6, r3]

/-- What is not an unlocked group root of a selected actor is not collected as one. -/
theorem not_mem_UnlockedGroups_of_not (w : World) (a : Nat)
    (h : ¬ (HasSelectedMember w a ∧ w.IsLocked a = false)) :
    a ∉ (collect w).UnlockedGroups := by
  rw [mem_UnlockedGroups_iff]
  exact h

/-! ## Actor teleport: offsets -/

/-- C1, the claim as stated fails in two ways. First, a selected unlocked
group actor with a selected member is an actor of the move set (it is selected
and ungrouped), yet it does not end at SnapLocationToGrid(L) + (old - R): the
call puts it at the centre of its members afterwards. In the scene with the
members at x = 0 and x = 2, the group actor at x = 1, the pivot at the origin
and the target (4,0,0) it ends at x = 3, not at x = 5. Second, in binary64
two moved actors do not keep their difference: with actors at x = 0.1 and
x = 0, the pivot at x = 0.3 and the target x = 0.7 they end at 0.5 and
0.39999999999999997, whose difference is not 0.1. -/
theorem TeleportActors_preserves_offsets_counterexample :
    (InMoveSet rootSelectedScene 20 ∧
      (TeleportActors Arithmetic.double rootSelectedScene ⟨4, 0, 0⟩).ActorLocation 20 ≠
        FVector.add Arithmetic.double
          (SnapLocationToGrid Arithmetic.double rootSelectedScene ⟨4, 0, 0⟩)
          (FVector.sub Arithmetic.double (rootSelectedScene.ActorLocation 20)
            rootSelectedScene.PivotLocation)) ∧
    (InMoveSet doubleScene 1 ∧ InMoveSet doubleScene 2 ∧
      FVector.sub Arithmetic.rational
          ((TeleportActors Arithmetic.double doubleScene ⟨sevenTenths, 0, 0⟩).ActorLocation 1)
          ((TeleportActors Arithmetic.double doubleScene ⟨sevenTenths, 0, 0⟩).ActorLocation 2) ≠
        FVector.sub Arithmetic.rational (doubleScene.ActorLocation 1)
          (doubleScene.ActorLocation 2)) := by
  obtain ⟨r1, r2, r3, r4, r5, r6, r10, r14, r15⟩ := roundDouble_small
  refine ⟨⟨Or.inl ⟨by decide, rfl⟩, ?_⟩,
    Or.inr (Or.inr ⟨10, ⟨1, by decide, rfl⟩, rfl, by decide⟩), Or.inl ⟨by decide, rfl⟩, ?_⟩
  · intro h
    have hX := congrArg FVector.X h
    rw [rootSelectedScene_root, SnapLocationToGrid_of_off _ rootSelectedScene _ (Or.inl rfl)]
      at hX
    norm_num [rootSelectedScene, blankWorld, Arithmetic.double_add, Arithmetic.double_sub,
      r1, r5] at hX
  · intro h
    have hX := congrArg FVector.X h
    rw [FVector.sub_X, FVector.sub_X, doubleScene_first, doubleScene_second] at hX
    change Arithmetic.rational.sub (1 / 2) (7205759403792793 / 18014398509481984) =
      Arithmetic.rational.sub tenth 0 at hX
    norm_num [tenth] at hX

/-- C1, amended. TeleportActors, for every world (selection, pivot `R`) and
target `L`: every actor of the move set (a selected ungrouped actor, a
selected member of an unlocked group, or a member of a locked group that is
the group root of a selected actor) ends at
SnapLocationToGrid(L) + (its location before the call - R), the sum and the
difference being the two rounded operations of the code and the offsets those
before the call, unless the actor is itself an unlocked group root of a
selected actor and has members. Such a root ends at the centre of its
members instead, the members being no such roots. Two actors that end at
their offsets keep their difference whenever neither of the two operations
rounds for them, and so always in exact arithmetic. In the example of the
specification (actors at (0,0,0), (10,0,0), (0,10,0), pivot at the origin,
target (5,5,0), snap off) the actors end at (5,5,0), (15,5,0), (5,15,0), in
binary64 too. -/
theorem TeleportActors_preserves_offsets (w : World) (L : FVector) :
    (∀ A a, InMoveSet w a →
      ¬ (HasSelectedMember w a ∧ w.IsLocked a = false ∧ w.GroupActors a ≠ []) →
      (TeleportActors A w L).ActorLocation a =
        FVector.add A (SnapLocationToGrid A w L)
          (FVector.sub A (w.ActorLocation a) w.PivotLocation)) ∧
    (∀ A a, InMoveSet w a →
      HasSelectedMember w a → w.IsLocked a = false → w.GroupActors a ≠ [] →
      (∀ m ∈ w.GroupActors a, ¬ (HasSelectedMember w m ∧ w.IsLocked m = false)) →
      (TeleportActors A w L).ActorLocation a =
        (sumLocations A (TeleportActors A w L) (w.GroupActors a)).divScalar A
          ((w.GroupActors a).length : ℚ)) ∧
    (∀ A a b, InMoveSet w a → InMoveSet w b →
      ¬ (HasSelectedMember w a ∧ w.IsLocked a = false ∧ w.GroupActors a ≠ []) →
      ¬ (HasSelectedMember w b ∧ w.IsLocked b = false ∧ w.GroupActors b ≠ []) →
      FVector.add A (SnapLocationToGrid A w L)
          (FVector.sub A (w.ActorLocation a) w.PivotLocation) =
        FVector.add Arithmetic.rational (SnapLocationToGrid A w L)
          (FVector.sub Arithmetic.rational (w.ActorLocation a) w.PivotLocation) →
      FVector.add A (SnapLocationToGrid A w L)
          (FVector.sub A (w.ActorLocation b) w.PivotLocation) =
        FVector.add Arithmetic.rational (SnapLocationToGrid A w L)
          (FVector.sub Arithmetic.rational (w.ActorLocation b) w.PivotLocation) →
      FVector.sub Arithmetic.rational ((TeleportActors A w L).ActorLocation a)
          ((TeleportActors A w L).ActorLocation b) =
        FVector.sub Arithmetic.rational (w.ActorLocation a) (w.ActorLocation b)) ∧
    (∀ a b, InMoveSet w a → InMoveSet w b →
      ¬ (HasSelectedMember w a ∧ w.IsLocked a = false ∧ w.GroupActors a ≠ []) →
      ¬ (HasSelectedMember w b ∧ w.IsLocked b = false ∧ w.GroupActors b ≠ []) →
      FVector.sub Arithmetic.rational
          ((TeleportActors Arithmetic.rational w L).ActorLocation a)
          ((TeleportActors Arithmetic.rational w L).ActorLocation b) =
        FVector.sub Arithmetic.rational (w.ActorLocation a) (w.ActorLocation b)) ∧
    ((TeleportActors Arithmetic.double threeActors ⟨5, 5, 0⟩).ActorLocation 0 = ⟨5, 5, 0⟩ ∧
      (TeleportActors Arithmetic.double threeActors ⟨5, 5, 0⟩).ActorLocation 1 = ⟨15, 5, 0⟩ ∧
      (TeleportActors Arithmetic.double threeActors ⟨5, 5, 0⟩).ActorLocation 2 =
        ⟨5, 15, 0⟩) := by
  obtain ⟨r1, r2, r3, r4, r5, r6, r10, r14, r15⟩ := roundDouble_small
  have key : ∀ (A : Arithmetic) (v : World) (T : FVector) (a : Nat), InMoveSet v a →
      ¬ (HasSelectedMember v a ∧ v.IsLocked a = false ∧ v.GroupActors a ≠ []) →
      (TeleportActors A v T).ActorLocation a =
        FVector.add A (SnapLocationToGrid A v T)
          (FVector.sub A (v.ActorLocation a) v.PivotLocation) := by
    intro A v T a ha hu
    apply TeleportActors_loc_of_mem_nil A v T a ((mem_ActorsToMove_iff v a).mpr ha)
    by_cases hn : v.GroupActors a = []
    · exact Or.inr hn
    · left
      rw [mem_UnlockedGroups_iff]
      exact fun h => hu ⟨h.1, h.2, hn⟩
  have three : ∀ a, ¬ (HasSelectedMember threeActors a ∧ threeActors.IsLocked a = false ∧
      threeActors.GroupActors a ≠ []) := by
    rintro a ⟨⟨s, _, hs⟩, _⟩
    cases hs
  refine ⟨fun A => key A w L, ?_, ?_, ?_, ?_, ?_, ?_⟩
  · intro A a _ hs hl hne hm
    exact TeleportActors_loc_of_unlocked A w L a ((mem_UnlockedGroups_iff w a).mpr ⟨hs, hl⟩)
      hne (fun m hmem => not_mem_UnlockedGroups_of_not w m (hm m hmem))
  · intro A a b ha hb hua hub ea eb
    rw [key A w L a ha hua, key A w L b hb hub, ea, eb, FVector.add_sub_add_left,
      FVector.sub_sub_sub_right]
  · intro a b ha hb hua hub
    rw [key _ w L a ha hua, key _ w L b hb hub, FVector.add_sub_add_left,
      FVector.sub_sub_sub_right]
  · rw [key _ threeActors ⟨5, 5, 0⟩ 0 (Or.inl ⟨by decide, rfl⟩) (three 0),
      SnapLocationToGrid_of_off _ threeActors _ (Or.inl rfl)]
    ext <;> norm_num [threeActors, blankWorld, Arithmetic.double_add, Arithmetic.double_sub, r5]
  · rw [key _ threeActors ⟨5, 5, 0⟩ 1 (Or.inl ⟨by decide, rfl⟩) (three 1),
      SnapLocationToGrid_of_off _ threeActors _ (Or.inl rfl)]
    ext <;> norm_num [threeActors, blankWorld, Arithmetic.double_add, Arithmetic.double_sub, r5,
      r10, r15]
  · rw [key _ threeActors ⟨5, 5, 0⟩ 2 (Or.inl ⟨by decide, rfl⟩) (three 2),
      SnapLocationToGrid_of_off _ threeActors _ (Or.inl rfl)]
    ext <;> norm_num [threeActors, blankWorld, Arithmetic.double_add, Arithmetic.double_sub, r5,
      r10, r15]

theorem TeleportActors_preserves_offsets_witness :
    (InMoveSet doubleScene 1 ∧
      ¬ (HasSelectedMember doubleScene 1 ∧ doubleScene.IsLocked 1 = false ∧
        doubleScene.GroupActors 1 ≠ []) ∧
      ((TeleportActors Arithmetic.double doubleScene ⟨sevenTenths, 0, 0⟩).ActorLocation 1).X =
        1 / 2) ∧
    (InMoveSet rootSelectedScene 20 ∧ HasSelectedMember rootSelectedScene 20 ∧
      ((TeleportActors Arithmetic.double rootSelectedScene ⟨4, 0, 0⟩).ActorLocation 20).X =
        3) := by
  obtain ⟨r1, r2, r3, r4, r5, r6, r10, r14, r15⟩ := roundDouble_small
  have hm : InMoveSet doubleScene 1 :=
    Or.inr (Or.inr ⟨10, ⟨1, by decide, rfl⟩, rfl, by decide⟩)
  have hu : ¬ (HasSelectedMember doubleScene 1 ∧ doubleScene.IsLocked 1 = false ∧
      doubleScene.GroupActors 1 ≠ []) := fun h => h.2.2 rfl
  have hr : InMoveSet rootSelectedScene 20 := Or.inl ⟨by decide, rfl⟩
  have hs : HasSelectedMember rootSelectedScene 20 := ⟨3, by decide, rfl⟩
  refine ⟨⟨hm, hu, ?_⟩, hr, hs, ?_⟩
  · rw [(TeleportActors_preserves_offsets doubleScene ⟨sevenTenths, 0, 0⟩).1 Arithmetic.double 1
      hm hu, SnapLocationToGrid_of_off _ doubleScene _ (Or.inl rfl)]
    show Arithmetic.double.add sevenTenths (Arithmetic.double.sub tenth threeTenths) = _
    rw [tenth_sub_threeTenths, sevenTenths_add_first]
  · have h4 : (TeleportActors Arithmetic.double rootSelectedScene ⟨4, 0, 0⟩).ActorLocation 4 =
        ⟨2, 0, 0⟩ :=
      TeleportActors_loc_of_not_mem Arithmetic.double rootSelectedScene _ 4 (by decide)
        (by decide) (by decide)
    rw [(TeleportActors_preserves_offsets rootSelectedScene ⟨4, 0, 0⟩).2.1 Arithmetic.double 20
      hr hs rfl (by decide) (fun m hmem => by
        rw [← mem_UnlockedGroups_iff]
        revert m
        decide)]
    show (FVector.divScalar Arithmetic.double
      (sumLocations Arithmetic.double
        (TeleportActors Arithmetic.double rootSelectedScene ⟨4, 0, 0⟩) [3, 4])
      ((2 : ℕ) : ℚ)).X = 3
    simp only [sumLocations, List.foldl, rootSelectedScene_member, h4]
    norm_num [FVector.divScalar, FVector.ZeroVector, Arithmetic.double_add,
      Arithmetic.double_div, r4, r6, r3]

/-! ## Actor teleport: locked groups -/

/-- In the scene with nested groups only the selected actors 1 and 3 are
actors to move, and the one collected group root is the outer group 30. -/
theorem nestedScene_collect :
    (collect nestedScene).ActorsToMove = [1, 3] ∧ (collect nestedScene).LockedGroups = [] ∧
      (collect nestedScene).UnlockedGroups = [30] := by
  decide

/-- In the scene with nested groups, actor 1 ends at x = 4. -/
theorem nestedScene_first :
    (TeleportActors Arithmetic.double nestedScene ⟨4, 0, 0⟩).ActorLocation 1 = ⟨4, 0, 0⟩ := by
  obtain ⟨r1, r2, r3, r4, r5, r6, r10, r14, r15⟩ := roundDouble_small
  rw [TeleportActors_loc_of_mem Arithmetic.double nestedScene _ 1 (by decide) (by decide),
    SnapLocationToGrid_of_off _ nestedScene _ (Or.inl rfl)]
  ext <;> norm_num [nestedScene, blankWorld, Arithmetic.double_add, Arithmetic.double_sub, r4]

/-- In the scene with nested groups, actor 3 ends at x = 14. -/
theorem nestedScene_third :
    (TeleportActors Arithmetic.double nestedScene ⟨4, 0, 0⟩).ActorLocation 3 = ⟨14, 0, 0⟩ := by
  obtain ⟨r1, r2, r3, r4, r5, r6, r10, r14, r15⟩ := roundDouble_small
  rw [TeleportActors_loc_of_mem Arithmetic.double nestedScene _ 3 (by decide) (by decide),
    SnapLocationToGrid_of_off _ nestedScene _ (Or.inl rfl)]
  ext <;> norm_num [nestedScene, blankWorld, Arithmetic.double_add, Arithmetic.double_sub, r10,
    r14]

/-- In the scene with nested groups, the unselected actors and the inner group
actors stay where they were. -/
theorem nestedScene_rest (x : Nat) (h1 : x ≠ 1) (h3 : x ≠ 3) (h30 : x ≠ 30) :
    (TeleportActors Arithmetic.double nestedScene ⟨4, 0, 0⟩).ActorLocation x =
      nestedScene.ActorLocation x := by
  apply TeleportActors_loc_of_not_mem
  · rw [nestedScene_collect.1]
    simp [h1, h3]
  · rw [nestedScene_collect.2.1]
    simp
  · rw [nestedScene_collect.2.2]
    simp [h30]

/-- C2, the claim as stated fails in two ways. First, a locked group that has
a selected member need not be the group root of that member. In the scene with
nested groups the locked group 10 (members 1 and 2, member 1 selected) lies
inside the unlocked group 30: its unselected member 2 is no actor to move and
stays, the group actor of 10 stays instead of ending at
SnapLocationToGrid(L) + (old - R), and member 1 does not keep its offset from
it. Second, in binary64 a member does not keep its offset from the group root
even when the group is the group root: with the member at x = 0.1, the group
actor at x = 0.2, the pivot at x = 0.3 and the target x = 0.7 they end at 0.5
and 0.6, whose difference is not 0.1 - 0.2. -/
theorem TeleportActors_locked_group_rigid_counterexample :
    (Selected nestedScene 1 ∧ 1 ∈ nestedScene.GroupActors 10 ∧
      nestedScene.IsLocked 10 = true ∧ 2 ∈ nestedScene.GroupActors 10 ∧
      2 ∉ (collect nestedScene).ActorsToMove ∧
      (TeleportActors Arithmetic.double nestedScene ⟨4, 0, 0⟩).ActorLocation 2 =
        nestedScene.ActorLocation 2 ∧
      (TeleportActors Arithmetic.double nestedScene ⟨4, 0, 0⟩).ActorLocation 10 ≠
        FVector.add Arithmetic.double
          (SnapLocationToGrid Arithmetic.double nestedScene ⟨4, 0, 0⟩)
          (FVector.sub Arithmetic.double (nestedScene.ActorLocation 10)
            nestedScene.PivotLocation) ∧
      FVector.sub Arithmetic.rational
          ((TeleportActors Arithmetic.double nestedScene ⟨4, 0, 0⟩).ActorLocation 1)
          ((TeleportActors Arithmetic.double nestedScene ⟨4, 0, 0⟩).ActorLocation 10) ≠
        FVector.sub Arithmetic.rational (nestedScene.ActorLocation 1)
          (nestedScene.ActorLocation 10)) ∧
    (HasSelectedMember doubleScene 10 ∧ doubleScene.IsLocked 10 = true ∧
      1 ∈ doubleScene.GroupActors 10 ∧
      FVector.sub Arithmetic.rational
          ((TeleportActors Arithmetic.double doubleScene ⟨sevenTenths, 0, 0⟩).ActorLocation 1)
          ((TeleportActors Arithmetic.double doubleScene ⟨sevenTenths, 0, 0⟩).ActorLocation
            10) ≠
        FVector.sub Arithmetic.rational (doubleScene.ActorLocation 1)
          (doubleScene.ActorLocation 10)) := by
  obtain ⟨r1, r2, r3, r4, r5, r6, r10, r14, r15⟩ := roundDouble_small
  refine ⟨⟨by decide, by decide, rfl, by decide, by decide,
    nestedScene_rest 2 (by decide) (by decide) (by decide), ?_, ?_⟩,
    ⟨1, by decide, rfl⟩, rfl, by decide, ?_⟩
  · intro h
    have hX := congrArg FVector.X h
    rw [nestedScene_rest 10 (by decide) (by decide) (by decide),
      SnapLocationToGrid_of_off _ nestedScene _ (Or.inl rfl)] at hX
    norm_num [nestedScene, blankWorld, Arithmetic.double_add, Arithmetic.double_sub,
      r1, r5] at hX
  · intro h
    have hX := congrArg FVector.X h
    rw [nestedScene_rest 10 (by decide) (by decide) (by decide), nestedScene_first] at hX
    norm_num [nestedScene, blankWorld] at hX
  · intro h
    have hX := congrArg FVector.X h
    rw [FVector.sub_X, FVector.sub_X, doubleScene_first, doubleScene_root] at hX
    change Arithmetic.rational.sub (1 / 2) (5404319552844595 / 9007199254740992) =
      Arithmetic.rational.sub tenth fifth at hX
    norm_num [tenth, fifth] at hX

/-- C2, amended. TeleportActors, for every locked group `G` that is the group
root `GetRootForActor` returns for a selected actor: every member of `G` is
among the actors to move, selected or not; every member ends at
SnapLocationToGrid(L) + (its old location - R), and so does the root of the
group when the group has a member, the sum and the difference being the two
rounded operations of the code. A member keeps its offset from the group root
whenever neither of the two operations rounds for the member and for the root,
and so always in exact arithmetic. The members are actors: a member is not
itself an unlocked group root of a selected actor. -/
theorem TeleportActors_locked_group_rigid (w : World) (L : FVector) (G : Nat)
    (hsel : HasSelectedMember w G) (hlock : w.IsLocked G = true) :
    (∀ m ∈ w.GroupActors G, m ∈ (collect w).ActorsToMove) ∧
    (∀ A, ∀ m ∈ w.GroupActors G, ¬ (HasSelectedMember w m ∧ w.IsLocked m = false) →
      (TeleportActors A w L).ActorLocation m =
        FVector.add A (SnapLocationToGrid A w L)
          (FVector.sub A (w.ActorLocation m) w.PivotLocation)) ∧
    (∀ A, w.GroupActors G ≠ [] →
      (TeleportActors A w L).ActorLocation G =
        FVector.add A (SnapLocationToGrid A w L)
          (FVector.sub A (w.ActorLocation G) w.PivotLocation)) ∧
    (∀ A, ∀ m ∈ w.GroupActors G, ¬ (HasSelectedMember w m ∧ w.IsLocked m = false) →
      FVector.add A (SnapLocationToGrid A w L)
          (FVector.sub A (w.ActorLocation m) w.PivotLocation) =
        FVector.add Arithmetic.rational (SnapLocationToGrid A w L)
          (FVector.sub Arithmetic.rational (w.ActorLocation m) w.PivotLocation) →
      FVector.add A (SnapLocationToGrid A w L)
          (FVector.sub A (w.ActorLocation G) w.PivotLocation) =
        FVector.add Arithmetic.rational (SnapLocationToGrid A w L)
          (FVector.sub Arithmetic.rational (w.ActorLocation G) w.PivotLocation) →
      FVector.sub Arithmetic.rational ((TeleportActors A w L).ActorLocation m)
          ((TeleportActors A w L).ActorLocation G) =
        FVector.sub Arithmetic.rational (w.ActorLocation m) (w.ActorLocation G)) ∧
    (∀ m ∈ w.GroupActors G, ¬ (HasSelectedMember w m ∧ w.IsLocked m = false) →
      FVector.sub Arithmetic.rational
          ((TeleportActors Arithmetic.rational w L).ActorLocation m)
          ((TeleportActors Arithmetic.rational w L).ActorLocation G) =
        FVector.sub Arithmetic.rational (w.ActorLocation m) (w.ActorLocation G)) := by
  have hmem : ∀ m ∈ w.GroupActors G, m ∈ (collect w).ActorsToMove := fun m hm =>
    (mem_ActorsToMove_iff w m).mpr (Or.inr (Or.inr ⟨G, hsel, hlock, hm⟩))
  have hG : G ∈ (collect w).LockedGroups := (mem_LockedGroups_iff w G).mpr ⟨hsel, hlock⟩
  have hroot : ∀ A, ∀ m ∈ w.GroupActors G, (TeleportActors A w L).ActorLocation G =
      FVector.add A (SnapLocationToGrid A w L)
        (FVector.sub A (w.ActorLocation G) w.PivotLocation) := fun A m hm =>
    TeleportActors_loc_of_locked A w L G hG (List.ne_nil_of_mem (hmem m hm))
  have hmove : ∀ A, ∀ m ∈ w.GroupActors G,
      ¬ (HasSelectedMember w m ∧ w.IsLocked m = false) →
      (TeleportActors A w L).ActorLocation m =
        FVector.add A (SnapLocationToGrid A w L)
          (FVector.sub A (w.ActorLocation m) w.PivotLocation) := fun A m hm hu =>
    TeleportActors_loc_of_mem A w L m (hmem m hm) (not_mem_UnlockedGroups_of_not w m hu)
  refine ⟨hmem, hmove, ?_, ?_, ?_⟩
  · intro A hne
    obtain ⟨m, hm⟩ := List.exists_mem_of_ne_nil _ hne
    exact hroot A m hm
  · intro A m hm hu em eG
    rw [hmove A m hm hu, hroot A m hm, em, eG, FVector.add_sub_add_left,
      FVector.sub_sub_sub_right]
  · intro m hm hu
    rw [hmove _ m hm hu, hroot _ m hm, FVector.add_sub_add_left, FVector.sub_sub_sub_right]

theorem TeleportActors_locked_group_rigid_witness :
    HasSelectedMember doubleScene 10 ∧ doubleScene.IsLocked 10 = true ∧
      1 ∈ (collect doubleScene).ActorsToMove ∧
      ((TeleportActors Arithmetic.double doubleScene ⟨sevenTenths, 0, 0⟩).ActorLocation 1).X =
        1 / 2 ∧
      ((TeleportActors Arithmetic.double doubleScene ⟨sevenTenths, 0, 0⟩).ActorLocation 10).X =
        5404319552844595 / 9007199254740992 := by
  have hs : HasSelectedMember doubleScene 10 := ⟨1, by decide, rfl⟩
  obtain ⟨h1, h2, h3, _, _⟩ :=
    TeleportActors_locked_group_rigid doubleScene ⟨sevenTenths, 0, 0⟩ 10 hs rfl
  refine ⟨hs, rfl, h1 1 (by decide), ?_, ?_⟩
  · rw [h2 Arithmetic.double 1 (by decide) (by rw [← mem_UnlockedGroups_iff]; decide),
      SnapLocationToGrid_of_off _ doubleScene _ (Or.inl rfl)]
    show Arithmetic.double.add sevenTenths (Arithmetic.double.sub tenth threeTenths) = _
    rw [tenth_sub_threeTenths, sevenTenths_add_first]
  · rw [h3 Arithmetic.double (by decide),
      SnapLocationToGrid_of_off _ doubleScene _ (Or.inl rfl)]
    show Arithmetic.double.add sevenTenths (Arithmetic.double.sub fifth threeTenths) = _
    rw [fifth_sub_threeTenths, sevenTenths_add_third]

/-! ## Actor teleport: unlocked groups -/

theorem roundDouble_twoThirds :
    roundDouble (2 / 3) = 6004799503160661 / 9007199254740992 := by
  rw [roundDouble_eq_of_pos _ (-1) 6004799503160661 (by norm_num)
    (by norm_num) (by norm_num) (by norm_num) (by norm_num [abs_lt])]
  norm_num

/-- In the scene with a group of three, the selected member ends at x = 2. -/
theorem thirdsScene_first :
    (TeleportActors Arithmetic.double thirdsScene ⟨1, 0, 0⟩).ActorLocation 1 = ⟨2, 0, 0⟩ := by
  obtain ⟨r1, r2, r3, r4, r5, r6, r10, r14, r15⟩ := roundDouble_small
  rw [TeleportActors_loc_of_mem Arithmetic.double thirdsScene _ 1 (by decide) (by decide),
    SnapLocationToGrid_of_off _ thirdsScene _ (Or.inl rfl)]
  ext <;> norm_num [thirdsScene, blankWorld, Arithmetic.double_add, Arithmetic.double_sub, r1,
    r2]

/-- In the scene with a group of three, the unselected members stay. -/
theorem thirdsScene_rest (x : Nat) (h1 : x ≠ 1) (h20 : x ≠ 20) :
    (TeleportActors Arithmetic.double thirdsScene ⟨1, 0, 0⟩).ActorLocation x = ⟨0, 0, 0⟩ := by
  have hc : (collect thirdsScene).ActorsToMove = [1] ∧ (collect thirdsScene).LockedGroups = [] ∧
      (collect thirdsScene).UnlockedGroups = [20] := by decide
  rw [TeleportActors_loc_of_not_mem Arithmetic.double thirdsScene _ x (by simp [hc.1, h1])
    (by simp [hc.2.1]) (by simp [hc.2.2, h20])]
  simp [thirdsScene, h1]

/-- In the scene with a group of three, the group actor ends at the binary64
value of 2/3, which is 0.66666666666666663. -/
theorem thirdsScene_root :
    ((TeleportActors Arithmetic.double thirdsScene ⟨1, 0, 0⟩).ActorLocation 20).X =
      6004799503160661 / 9007199254740992 := by
  obtain ⟨r1, r2, r3, r4, r5, r6, r10, r14, r15⟩ := roundDouble_small
  rw [TeleportActors_loc_of_unlocked Arithmetic.double thirdsScene _ 20 (by decide)
    (by decide) (by decide)]
  show (FVector.divScalar Arithmetic.double
    (sumLocations Arithmetic.double (TeleportActors Arithmetic.double thirdsScene ⟨1, 0, 0⟩)
      [1, 2, 3]) ((3 : ℕ) : ℚ)).X = _
  simp only [sumLocations, List.foldl, thirdsScene_first,
    thirdsScene_rest 2 (by decide) (by decide), thirdsScene_rest 3 (by decide) (by decide)]
  norm_num [FVector.divScalar, FVector.ZeroVector, Arithmetic.double_add, Arithmetic.double_div,
    r2, roundDouble_twoThirds]

/-- C3, the claim as stated fails in two ways. First, in binary64 the root is
not exactly at the arithmetic mean: with the three members of an unlocked
group ending at x = 2, 0 and 0 the group actor ends at the binary64 value of
2/3, which is not 2/3. Second, an unlocked group that has a selected member
need not be the group root of that member. In the scene with nested groups the
unlocked group 20 (members 3 and 4, member 3 selected) lies inside the group
30: its group actor stays at x = 11, while its members end at x = 14 and
x = 12, with mean 13. -/
theorem TeleportActors_unlocked_group_centroid_counterexample :
    (Selected thirdsScene 1 ∧ 1 ∈ thirdsScene.GroupActors 20 ∧
      HasSelectedMember thirdsScene 20 ∧ thirdsScene.IsLocked 20 = false ∧
      thirdsScene.GroupActors 20 ≠ [] ∧
      (TeleportActors Arithmetic.double thirdsScene ⟨1, 0, 0⟩).ActorLocation 20 ≠
        meanLocation (TeleportActors Arithmetic.double thirdsScene ⟨1, 0, 0⟩).ActorLocation
          (thirdsScene.GroupActors 20)) ∧
    (Selected nestedScene 3 ∧ 3 ∈ nestedScene.GroupActors 20 ∧
      nestedScene.IsLocked 20 = false ∧ nestedScene.GroupActors 20 ≠ [] ∧
      (TeleportActors Arithmetic.double nestedScene ⟨4, 0, 0⟩).ActorLocation 20 ≠
        meanLocation (TeleportActors Arithmetic.double nestedScene ⟨4, 0, 0⟩).ActorLocation
          (nestedScene.GroupActors 20)) := by
  refine ⟨⟨by decide, by decide, ⟨1, by decide, rfl⟩, rfl, by decide, ?_⟩,
    by decide, by decide, rfl, by decide, ?_⟩
  · intro h
    have hX := congrArg FVector.X h
    rw [thirdsScene_root] at hX
    change _ = (meanLocation (TeleportActors Arithmetic.double thirdsScene ⟨1, 0, 0⟩).ActorLocation
      [1, 2, 3]).X at hX
    simp only [meanLocation, List.map_cons, List.map_nil, thirdsScene_first,
      thirdsScene_rest 2 (by decide) (by decide), thirdsScene_rest 3 (by decide) (by decide)]
      at hX
    norm_num at hX
  · intro h
    have hX := congrArg FVector.X h
    rw [nestedScene_rest 20 (by decide) (by decide) (by decide)] at hX
    change _ = (meanLocation (TeleportActors Arithmetic.double nestedScene ⟨4, 0, 0⟩).ActorLocation
      [3, 4]).X at hX
    simp only [meanLocation, List.map_cons, List.map_nil, nestedScene_third,
      nestedScene_rest 4 (by decide) (by decide) (by decide)] at hX
    norm_num [nestedScene, blankWorld] at hX

/-- C3, amended. TeleportActors, for every unlocked group `U` that is the
group root `GetRootForActor` returns for a selected actor and has at least one
member: after the call the root of `U` sits at the centre the code computes
from the locations its members have after the call, their sum taken from zero
in the order of the members with every addition rounded, divided by their
number and rounded; in exact arithmetic this is exactly the arithmetic mean of
those locations. A selected member of `U` is then at its moved location, and
an unselected member that neither belongs to nor is a locked group root of a
selected actor is where it was. The members are actors: a member is not itself
an unlocked group root of a selected actor. -/
theorem TeleportActors_unlocked_group_centroid (w : World) (L : FVector) (U : Nat)
    (hsel : HasSelectedMember w U) (hunl : w.IsLocked U = false)
    (hne : w.GroupActors U ≠ [])
    (hplain : ∀ m ∈ w.GroupActors U, ¬ (HasSelectedMember w m ∧ w.IsLocked m = false)) :
    (∀ A, (TeleportActors A w L).ActorLocation U =
      (sumLocations A (TeleportActors A w L) (w.GroupActors U)).divScalar A
        ((w.GroupActors U).length : ℚ)) ∧
    (TeleportActors Arithmetic.rational w L).ActorLocation U =
      meanLocation (TeleportActors Arithmetic.rational w L).ActorLocation (w.GroupActors U) ∧
    (∀ A, ∀ m ∈ w.GroupActors U, Selected w m → w.RootForActor m = some U →
      (TeleportActors A w L).ActorLocation m =
        FVector.add A (SnapLocationToGrid A w L)
          (FVector.sub A (w.ActorLocation m) w.PivotLocation)) ∧
    (∀ A, ∀ m ∈ w.GroupActors U, ¬ Selected w m →
      (∀ G, HasSelectedMember w G → w.IsLocked G = true → m ∉ w.GroupActors G ∧ m ≠ G) →
      (TeleportActors A w L).ActorLocation m = w.ActorLocation m) := by
  have hU : U ∈ (collect w).UnlockedGroups := (mem_UnlockedGroups_iff w U).mpr ⟨hsel, hunl⟩
  have hp : ∀ m ∈ w.GroupActors U, m ∉ (collect w).UnlockedGroups := fun m hm =>
    not_mem_UnlockedGroups_of_not w m (hplain m hm)
  refine ⟨fun A => TeleportActors_loc_of_unlocked A w L U hU hne hp, ?_, ?_, ?_⟩
  · rw [TeleportActors_loc_of_unlocked Arithmetic.rational w L U hU hne hp]
    exact sumLocations_divScalar _ _
  · intro A m hm hs hr
    exact TeleportActors_loc_of_mem A w L m
      ((mem_ActorsToMove_iff w m).mpr (Or.inr (Or.inl ⟨hs, U, hr, hunl⟩))) (hp m hm)
  · intro A m hm hs hG
    apply TeleportActors_loc_of_not_mem A w L m
    · rw [mem_ActorsToMove_iff]
      rintro (⟨h, _⟩ | ⟨h, _⟩ | ⟨G, h1, h2, h3⟩)
      · exact hs h
      · exact hs h
      · exact (hG G h1 h2).1 h3
    · rw [mem_LockedGroups_iff]
      rintro ⟨h1, h2⟩
      exact (hG m h1 h2).2 rfl
    · exact hp m hm

theorem TeleportActors_unlocked_group_centroid_witness :
    HasSelectedMember thirdsScene 20 ∧
      (TeleportActors Arithmetic.double thirdsScene ⟨1, 0, 0⟩).ActorLocation 1 = ⟨2, 0, 0⟩ ∧
      (TeleportActors Arithmetic.double thirdsScene ⟨1, 0, 0⟩).ActorLocation 2 = ⟨0, 0, 0⟩ ∧
      ((TeleportActors Arithmetic.double thirdsScene ⟨1, 0, 0⟩).ActorLocation 20).X =
        6004799503160661 / 9007199254740992 ∧
      (TeleportActors Arithmetic.rational thirdsScene ⟨1, 0, 0⟩).ActorLocation 20 =
        ⟨2 / 3, 0, 0⟩ := by
  obtain ⟨r1, r2, r3, r4, r5, r6, r10, r14, r15⟩ := roundDouble_small
  have hs : HasSelectedMember thirdsScene 20 := ⟨1, by decide, rfl⟩
  have hpl : ∀ m ∈ thirdsScene.GroupActors 20,
      ¬ (HasSelectedMember thirdsScene m ∧ thirdsScene.IsLocked m = false) := by
    intro m hm
    rw [← mem_UnlockedGroups_iff]
    revert m
    decide
  obtain ⟨h1, h2, h3, h4⟩ :=
    TeleportActors_unlocked_group_centroid thirdsScene ⟨1, 0, 0⟩ 20 hs rfl (by decide) hpl
  have hlocked : ∀ G, thirdsScene.IsLocked G = true → False := fun G h => by cases h
  have e1 : ∀ A, (TeleportActors A thirdsScene ⟨1, 0, 0⟩).ActorLocation 1 =
      FVector.add A ⟨1, 0, 0⟩ (FVector.sub A ⟨1, 0, 0⟩ ⟨0, 0, 0⟩) := by
    intro A
    rw [h3 A 1 (by decide) (by decide) rfl,
      SnapLocationToGrid_of_off _ thirdsScene _ (Or.inl rfl)]
    rfl
  have e2 : ∀ A, (TeleportActors A thirdsScene ⟨1, 0, 0⟩).ActorLocation 2 = ⟨0, 0, 0⟩ := by
    intro A
    rw [h4 A 2 (by decide) (by decide) (fun G _ hl => (hlocked G hl).elim)]
    rfl
  have e3 : ∀ A, (TeleportActors A thirdsScene ⟨1, 0, 0⟩).ActorLocation 3 = ⟨0, 0, 0⟩ := by
    intro A
    rw [h4 A 3 (by decide) (by decide) (fun G _ hl => (hlocked G hl).elim)]
    rfl
  have d1 : (TeleportActors Arithmetic.double thirdsScene ⟨1, 0, 0⟩).ActorLocation 1 =
      ⟨2, 0, 0⟩ := by
    rw [e1]
    ext <;> norm_num [Arithmetic.double_add, Arithmetic.double_sub, r1, r2]
  refine ⟨hs, d1, e2 _, ?_, ?_⟩
  · rw [h1 Arithmetic.double]
    show (FVector.divScalar Arithmetic.double
      (sumLocations Arithmetic.double (TeleportActors Arithmetic.double thirdsScene ⟨1, 0, 0⟩)
        [1, 2, 3]) ((3 : ℕ) : ℚ)).X = _
    simp only [sumLocations, List.foldl, d1, e2, e3]
    norm_num [FVector.divScalar, FVector.ZeroVector, Arithmetic.double_add,
      Arithmetic.double_div, r2, roundDouble_twoThirds]
  · rw [h2]
    show meanLocation (TeleportActors Arithmetic.rational thirdsScene ⟨1, 0, 0⟩).ActorLocation
      [1, 2, 3] = _
    simp only [meanLocation, List.map_cons, List.map_nil, e1, e2, e3]
    ext <;> norm_num

/-! ## Spline-point teleport and dispatch: the claims -/

/-- The spline points after the handler's move: the selected keys of the
component, listed once each, have the offset added, and every other spline
point is where it was. -/
theorem splineMoved_SplinePointLocation (A : Arithmetic) (w : World) (S : FVector)
    (vc : FLevelEditorViewportClient) (c : UActorComponent) (v : FSplineComponentVisualizer)
    (hnd : v.SelectedKeys.Nodup) :
    (splineMoved A w S vc c v).SplinePointLocation = fun c1 k =>
      if c1 = c.Id ∧ k ∈ v.SelectedKeys then
        FVector.add A (w.SplinePointLocation c1 k) (FVector.sub A S vc.WidgetLocation)
      else w.SplinePointLocation c1 k := by
  funext c1 k
  by_cases h : c1 = c.Id ∧ k ∈ v.SelectedKeys
  · rw [if_pos h]
    obtain ⟨h1, h2⟩ := h
    subst h1
    exact moveSelectedKeys_of_mem A v.SelectedKeys _ c.Id _ k h2 hnd
  · rw [if_neg h]
    exact moveSelectedKeys_of_not_mem A v.SelectedKeys _ c.Id _ c1 k (not_and_or.mp h)

theorem roundDouble_spline :
    roundDouble 5 = 5 ∧ roundDouble (-95) = -95 ∧ roundDouble 105 = 105 :=
  ⟨roundDouble_of_int 5 5 (by norm_num) (by norm_num) (by norm_num),
    roundDouble_of_int (-95) (-95) (by norm_num) (by norm_num) (by norm_num),
    roundDouble_of_int 105 105 (by norm_num) (by norm_num) (by norm_num)⟩

/-- C4. TeleportSelectedSplinePoint with an editor, a component selection, a
module and a viewport client present: when the active spline component (the
first selected component that is a spline whose visualizer reports a selected
key) has at least one selected control point, the handler returns true, and
every selected control point of that component, the keys being listed once
each, ends at its old world location plus the one offset
SnapLocationToGrid(L) - widget pivot, the sum and the difference being the
rounded operations of the code. -/
theorem TeleportSelectedSplinePoint_moves_selected (A : Arithmetic) (w : World) (L : FVector)
    (pre post : List UActorComponent) (c : UActorComponent)
    (v : FSplineComponentVisualizer) (vc : FLevelEditorViewportClient)
    (hE : w.GEditor = true) (hC : w.SelectedComponents = some (pre ++ c :: post))
    (hV : w.ViewportClient = some vc)
    (hpre : ∀ x ∈ pre, ¬ HasSelectedPoint w x)
    (hspline : c.IsSpline = true) (hvis : w.FindComponentVisualizer c.Class = some v)
    (hkeys : v.SelectedKeys ≠ []) (hnodup : v.SelectedKeys.Nodup) :
    (TeleportSelectedSplinePoint A w L true).1 = true ∧
      ∀ k ∈ v.SelectedKeys,
        (TeleportSelectedSplinePoint A w L true).2.SplinePointLocation c.Id k =
          FVector.add A (w.SplinePointLocation c.Id k)
            (FVector.sub A (SnapLocationToGrid A w L) vc.WidgetLocation) := by
  rw [TeleportSelectedSplinePoint_eq A w L _ vc hE hC hV,
    splineLoop_first A w _ vc pre post c v hpre hspline hvis hkeys]
  refine ⟨rfl, ?_⟩
  intro k hk
  exact moveSelectedKeys_of_mem A v.SelectedKeys _ c.Id _ k hk hnodup

theorem TeleportSelectedSplinePoint_moves_selected_witness :
    (TeleportSelectedSplinePoint Arithmetic.double splineScene ⟨5, 5, 0⟩ true).1 = true ∧
      (TeleportSelectedSplinePoint Arithmetic.double splineScene ⟨5, 5, 0⟩
        true).2.SplinePointLocation 8 0 = ⟨-95, 5, 0⟩ ∧
      (TeleportSelectedSplinePoint Arithmetic.double splineScene ⟨5, 5, 0⟩
        true).2.SplinePointLocation 8 2 = ⟨105, 5, 0⟩ := by
  obtain ⟨r5, r95, r105⟩ := roundDouble_spline
  obtain ⟨h1, h2⟩ :=
    TeleportSelectedSplinePoint_moves_selected Arithmetic.double splineScene ⟨5, 5, 0⟩
      [⟨7, 0, false⟩] [] ⟨8, 1, true⟩ ⟨[0, 2]⟩ ⟨true, true, ⟨100, 0, 0⟩⟩ rfl rfl rfl
      (fun x hx h => by
        rw [List.mem_singleton] at hx
        rw [hx] at h
        exact absurd h.1 (by decide))
      rfl rfl (by decide) (by decide)
  have hsnap : SnapLocationToGrid Arithmetic.double splineScene ⟨5, 5, 0⟩ = ⟨5, 5, 0⟩ :=
    SnapLocationToGrid_of_off _ splineScene _ (Or.inl rfl)
  refine ⟨h1, ?_, ?_⟩
  · rw [h2 0 (by decide), hsnap]
    ext <;> norm_num [splineScene, blankWorld, Arithmetic.double_add, Arithmetic.double_sub,
      r5, r95, r105]
  · rw [h2 2 (by decide), hsnap]
    ext <;> norm_num [splineScene, blankWorld, Arithmetic.double_add, Arithmetic.double_sub,
      r5, r95, r105]

/-- C5. OnTeleportHotkeyPressed, for every invocation in which the location
resolver succeeds with location `L`. If a selected component has a selected
spline control point, the spline handler reports handled and the invocation
ends after the spline move and a redraw, TeleportActors not being run: no
actor or group location changes, no actor is modified, moved or marked dirty,
and one transaction is opened. The state it leaves is then known in full: with
`c` the active spline component (the first selected component that is a spline
whose visualizer reports a selected key, the keys being listed once each),
every selected control point of `c` has the offset
SnapLocationToGrid(L) - widget pivot added, every other spline point is where
it was, the component is modified and its spline updated, one transaction and
one redraw are counted, and nothing else differs from the state before.
Otherwise, when the spline handler reports not handled, it has left the state
alone and TeleportActors is run with the same location `L`; and the handler
reports not handled whenever no selected component has a selected spline
control point. -/
theorem OnTeleportHotkeyPressed_dispatch (A : Arithmetic) (w : World) (L : FVector)
    (hE : w.GEditor = true) (hA : w.ActiveViewport = true)
    (hres : GetTeleportLocation w w.ViewportClient = (L, true)) :
    ((∃ comps, w.SelectedComponents = some comps ∧ ∃ c ∈ comps, HasSelectedPoint w c) →
      (TeleportSelectedSplinePoint A w L true).1 = true ∧
      OnTeleportHotkeyPressed A w =
        RedrawLevelEditingViewports (TeleportSelectedSplinePoint A w L true).2 ∧
      (OnTeleportHotkeyPressed A w).ActorLocation = w.ActorLocation ∧
      (OnTeleportHotkeyPressed A w).Modified = w.Modified ∧
      (OnTeleportHotkeyPressed A w).PostEditMoved = w.PostEditMoved ∧
      (OnTeleportHotkeyPressed A w).Dirty = w.Dirty ∧
      (OnTeleportHotkeyPressed A w).Transactions = w.Transactions + 1) ∧
    (∀ (pre post : List UActorComponent) (c : UActorComponent)
        (v : FSplineComponentVisualizer) (vc : FLevelEditorViewportClient),
      w.SelectedComponents = some (pre ++ c :: post) →
      (∀ x ∈ pre, ¬ HasSelectedPoint w x) →
      c.IsSpline = true → w.FindComponentVisualizer c.Class = some v →
      v.SelectedKeys ≠ [] → v.SelectedKeys.Nodup → w.ViewportClient = some vc →
      OnTeleportHotkeyPressed A w =
        { w with
          Transactions := w.Transactions + 1
          ModifiedComponents := c.Id :: w.ModifiedComponents
          UpdatedSplines := c.Id :: w.UpdatedSplines
          Redrawn := w.Redrawn + 1
          SplinePointLocation := fun c1 k =>
            if c1 = c.Id ∧ k ∈ v.SelectedKeys then
              FVector.add A (w.SplinePointLocation c1 k)
                (FVector.sub A (SnapLocationToGrid A w L) vc.WidgetLocation)
            else w.SplinePointLocation c1 k }) ∧
    ((TeleportSelectedSplinePoint A w L true).1 = false →
      (TeleportSelectedSplinePoint A w L true).2 = w ∧
      OnTeleportHotkeyPressed A w =
        NoteSelectionChange (RedrawLevelEditingViewports (Invalidate
          (TeleportActors A w L)))) ∧
    ((¬ ∃ comps, w.SelectedComponents = some comps ∧ ∃ c ∈ comps, HasSelectedPoint w c) →
      (TeleportSelectedSplinePoint A w L true).1 = false) := by
  have hdisp := OnTeleportHotkeyPressed_eq A w L hE hA hres
  obtain ⟨vc, hvc⟩ := GetTeleportLocation_success w w.ViewportClient (by rw [hres])
  refine ⟨?_, ?_, ?_, ?_⟩
  · rintro ⟨comps, hC, c, hc, hpt⟩
    have hloop := TeleportSelectedSplinePoint_eq A w L comps vc hE hC hvc
    rcases splineLoop_cases A w (SnapLocationToGrid A w L) vc comps with
      ⟨hnone, _⟩ | ⟨d, _, v, _, hmoved⟩
    · exact absurd hpt (hnone c hc)
    · have hd : OnTeleportHotkeyPressed A w =
          RedrawLevelEditingViewports (splineMoved A w (SnapLocationToGrid A w L) vc d v) := by
        rw [hdisp, hloop, hmoved]
        exact if_pos rfl
      rw [hloop, hmoved, hd, splineMoved_eq]
      exact ⟨rfl, rfl, rfl, rfl, rfl, rfl, rfl⟩
  · intro pre post c v vc1 hC hpre hspline hvis hkeys hnd hV
    have hd : OnTeleportHotkeyPressed A w =
        RedrawLevelEditingViewports (splineMoved A w (SnapLocationToGrid A w L) vc1 c v) := by
      rw [hdisp, TeleportSelectedSplinePoint_eq A w L _ vc1 hE hC hV,
        splineLoop_first A w _ vc1 pre post c v hpre hspline hvis hkeys]
      exact if_pos rfl
    rw [hd, splineMoved_eq,
      splineMoved_SplinePointLocation A w (SnapLocationToGrid A w L) vc1 c v hnd]
    rfl
  · intro hfalse
    have hu : (TeleportSelectedSplinePoint A w L true).2 = w := by
      rcases TeleportSelectedSplinePoint_cases A w L true with
        h | ⟨_, _, _, _, _, _, _, _, _, _, h⟩
      · rw [h]
      · rw [h] at hfalse
        cases hfalse
    refine ⟨hu, ?_⟩
    rw [hdisp, hfalse, hu]
    simp
  · intro hno
    rcases TeleportSelectedSplinePoint_cases A w L true with
      h | ⟨comps, _, c, _, _, hC, _, _, hc, hpt, _⟩
    · rw [h]
    · exact absurd ⟨comps, hC, c, hc, hpt⟩ hno

theorem OnTeleportHotkeyPressed_dispatch_witness :
    ((OnTeleportHotkeyPressed Arithmetic.double splineScene).SplinePointLocation 8 0 =
        ⟨-95, 5, 0⟩ ∧
      (OnTeleportHotkeyPressed Arithmetic.double splineScene).SplinePointLocation 8 1 =
        ⟨100, 0, 0⟩ ∧
      (OnTeleportHotkeyPressed Arithmetic.double splineScene).SplinePointLocation 8 2 =
        ⟨105, 5, 0⟩ ∧
      (OnTeleportHotkeyPressed Arithmetic.double splineScene).ActorLocation =
        splineScene.ActorLocation ∧
      (OnTeleportHotkeyPressed Arithmetic.double splineScene).Transactions = 1) ∧
    OnTeleportHotkeyPressed Arithmetic.double threeActors =
      NoteSelectionChange (RedrawLevelEditingViewports (Invalidate
        (TeleportActors Arithmetic.double threeActors ⟨5, 5, 0⟩))) := by
  obtain ⟨r5, r95, r105⟩ := roundDouble_spline
  have hsnap : SnapLocationToGrid Arithmetic.double splineScene ⟨5, 5, 0⟩ = ⟨5, 5, 0⟩ :=
    SnapLocationToGrid_of_off _ splineScene _ (Or.inl rfl)
  have h := (OnTeleportHotkeyPressed_dispatch Arithmetic.double splineScene ⟨5, 5, 0⟩
    rfl rfl rfl).2.1 [⟨7, 0, false⟩] [] ⟨8, 1, true⟩ ⟨[0, 2]⟩ ⟨true, true, ⟨100, 0, 0⟩⟩ rfl
      (fun x hx hp => by
        rw [List.mem_singleton] at hx
        rw [hx] at hp
        exact absurd hp.1 (by decide))
      rfl rfl (by decide) (by decide) rfl
  refine ⟨⟨?_, ?_, ?_, ?_, ?_⟩,
    ((OnTeleportHotkeyPressed_dispatch Arithmetic.double threeActors ⟨5, 5, 0⟩
      rfl rfl rfl).2.2.1 rfl).2⟩
  · rw [h, hsnap]
    ext <;> norm_num [splineScene, blankWorld, Arithmetic.double_add, Arithmetic.double_sub,
      r5, r95, r105]
  · rw [h, hsnap]
    ext <;> norm_num [splineScene, blankWorld]
  · rw [h, hsnap]
    ext <;> norm_num [splineScene, blankWorld, Arithmetic.double_add, Arithmetic.double_sub,
      r5, r95, r105]
  · rw [h]
  · rw [h]
    rfl

/-! ## Grid snap in binary64: idempotence near the origin -/

theorem roundHalfEven_sub_le (q : ℚ) : |(roundHalfEven q : ℚ) - q| ≤ 1 / 2 := by
  unfold roundHalfEven
  have h1 := Int.floor_le q
  have h2 := Int.lt_floor_add_one q
  split_ifs with a b c
  · rw [abs_le]
    constructor <;> linarith
  · push_cast
    rw [abs_le]
    constructor <;> linarith
  · rw [abs_le]
    constructor <;> linarith
  · push_cast
    rw [abs_le]
    constructor <;> linarith

/-- In the normal range rounding to binary64 changes a value by at most the
fraction 2 ^ -53 of it. -/
theorem roundDouble_sub_le (x : ℚ) (hx : (2 : ℚ) ^ (-1022 : ℤ) ≤ |x|) :
    |roundDouble x - x| ≤ |x| * 2 ^ (-53 : ℤ) := by
  have hpos : 0 < |x| := lt_of_lt_of_le (by positivity) hx
  have hx0 : x ≠ 0 := abs_pos.mp hpos
  have hlog : -1022 ≤ Int.log 2 |x| := by
    rw [← Int.zpow_le_iff_le_log (by norm_num) hpos]
    exact_mod_cast hx
  have hle : (2 : ℚ) ^ Int.log 2 |x| ≤ |x| := by
    exact_mod_cast Int.zpow_log_le_self (b := 2) (by norm_num) hpos
  unfold roundDouble
  rw [if_neg hx0]
  simp only [max_eq_left hlog]
  have hp : (0 : ℚ) < 2 ^ (Int.log 2 |x| - 52) := by positivity
  have key : (roundHalfEven (x / 2 ^ (Int.log 2 |x| - 52)) : ℚ) * 2 ^ (Int.log 2 |x| - 52) - x =
      ((roundHalfEven (x / 2 ^ (Int.log 2 |x| - 52)) : ℚ) - x / 2 ^ (Int.log 2 |x| - 52)) *
        2 ^ (Int.log 2 |x| - 52) := by
    field_simp
  have hsplit : (2 : ℚ) ^ (Int.log 2 |x| - 52) = 2 ^ Int.log 2 |x| * 2 ^ (-52 : ℤ) := by
    rw [← zpow_add₀ (by norm_num : (2 : ℚ) ≠ 0)]
    rfl
  rw [key, abs_mul, abs_of_pos hp]
  calc |(roundHalfEven (x / 2 ^ (Int.log 2 |x| - 52)) : ℚ) - x / 2 ^ (Int.log 2 |x| - 52)| *
        2 ^ (Int.log 2 |x| - 52)
      ≤ 1 / 2 * 2 ^ (Int.log 2 |x| - 52) :=
        mul_le_mul_of_nonneg_right (roundHalfEven_sub_le _) hp.le
    _ = 2 ^ Int.log 2 |x| * 2 ^ (-53 : ℤ) := by
        rw [hsplit]
        norm_num
        ring
    _ ≤ |x| * 2 ^ (-53 : ℤ) := mul_le_mul_of_nonneg_right hle (by positivity)

theorem roundDouble_half : roundDouble (1 / 2) = 1 / 2 := by
  rw [roundDouble_eq_of_pos _ (-1) 4503599627370496 (by norm_num) (by norm_num)
    (by norm_num) (by norm_num) (by norm_num [abs_lt])]
  norm_num

theorem zpow_min_le : (2 : ℚ) ^ (-1022 : ℤ) ≤ 1 / 4 :=
  calc (2 : ℚ) ^ (-1022 : ℤ) ≤ 2 ^ (-2 : ℤ) := zpow_le_zpow_right₀ (by norm_num) (by norm_num)
    _ = 1 / 4 := by norm_num

/-- In binary64, a grid line `m * g` within 2 ^ 49 steps of the origin, once
rounded, is found again as the line `m` by the division and the rounding of
the snap. -/
theorem RoundToFloat_double_snapped (g : ℚ) (m : ℤ) (hg : 0 < g)
    (hm : |(m : ℚ)| ≤ 2 ^ 49) (hlo : m = 0 ∨ (2 : ℚ) ^ (-1022 : ℤ) ≤ |(m : ℚ) * g|) :
    RoundToFloat Arithmetic.double
      (Arithmetic.double.div (Arithmetic.double.mul m g) g) = m := by
  by_cases h0 : m = 0
  · subst h0
    have hf : ⌊(1 / 2 : ℚ)⌋ = 0 := by
      rw [Int.floor_eq_iff]
      norm_num
    simp only [RoundToFloat, Arithmetic.double_add, Arithmetic.double_div,
      Arithmetic.double_mul, Int.cast_zero, zero_mul, roundDouble_zero, zero_div, zero_add,
      roundDouble_half, hf]
  · have hlo2 := hlo.resolve_left h0
    have hu : (2 : ℚ) ^ (-53 : ℤ) = 1 / 9007199254740992 := by norm_num
    have hmin := zpow_min_le
    obtain ⟨hm1, hm2⟩ := abs_le.mp hm
    have hsign : (1 : ℚ) ≤ m ∨ (m : ℚ) ≤ -1 := by
      rcases lt_or_gt_of_ne h0 with h | h
      · right
        have : m ≤ -1 := by omega
        exact_mod_cast this
      · left
        have : 1 ≤ m := by omega
        exact_mod_cast this
    have hs := roundDouble_sub_le ((m : ℚ) * g) hlo2
    rw [abs_mul, abs_of_pos hg, hu] at hs
    show ((⌊roundDouble (roundDouble (roundDouble ((m : ℚ) * g) / g) + 1 / 2)⌋ : ℤ) : ℚ) = m
    generalize roundDouble ((m : ℚ) * g) = s at hs ⊢
    have ht : |s / g - m| ≤ 1 / 16 := by
      have e : s / g - m = (s - m * g) / g := by
        field_simp
        ring
      rw [e, abs_div, abs_of_pos hg, div_le_iff₀ hg]
      calc |s - m * g| ≤ |(m : ℚ)| * g * (1 / 9007199254740992) := hs
        _ ≤ 2 ^ 49 * g * (1 / 9007199254740992) := by gcongr
        _ = 1 / 16 * g := by
          norm_num
          ring
    obtain ⟨ht1, ht2⟩ := abs_le.mp ht
    have htlo : (2 : ℚ) ^ (-1022 : ℤ) ≤ |s / g| := by
      rcases hsign with h | h
      · have := le_abs_self (s / g)
        linarith
      · have := neg_le_abs (s / g)
        linarith
    have hthi : |s / g| ≤ 2 ^ 50 := by
      rw [abs_le]
      constructor <;> norm_num at hm1 hm2 ⊢ <;> linarith
    have hq := roundDouble_sub_le (s / g) htlo
    rw [hu] at hq
    generalize roundDouble (s / g) = q at hq ⊢
    have hq2 : |q - s / g| ≤ 1 / 8 :=
      calc |q - s / g| ≤ |s / g| * (1 / 9007199254740992) := hq
        _ ≤ 2 ^ 50 * (1 / 9007199254740992) := by gcongr
        _ = 1 / 8 := by norm_num
    obtain ⟨hq3, hq4⟩ := abs_le.mp hq2
    have hylo : (2 : ℚ) ^ (-1022 : ℤ) ≤ |q + 1 / 2| := by
      rcases hsign with h | h
      · have := le_abs_self (q + 1 / 2)
        linarith
      · have := neg_le_abs (q + 1 / 2)
        linarith
    have hyhi : |q + 1 / 2| ≤ 2 ^ 50 := by
      rw [abs_le]
      constructor <;> norm_num at hm1 hm2 ⊢ <;> linarith
    have hz := roundDouble_sub_le (q + 1 / 2) hylo
    rw [hu] at hz
    generalize roundDouble (q + 1 / 2) = z at hz ⊢
    have hz2 : |z - (q + 1 / 2)| ≤ 1 / 8 :=
      calc |z - (q + 1 / 2)| ≤ |q + 1 / 2| * (1 / 9007199254740992) := hz
        _ ≤ 2 ^ 50 * (1 / 9007199254740992) := by gcongr
        _ = 1 / 8 := by norm_num
    obtain ⟨hz3, hz4⟩ := abs_le.mp hz2
    have hfl : ⌊z⌋ = m := by
      rw [Int.floor_eq_iff]
      constructor <;> linarith
    rw [hfl]

/-- A snapped coordinate in range snaps to itself in binary64. -/
theorem snapCoordinate_double_idem (g x : ℚ) (hg : 0 < g) (h : SnapsInRange g x) :
    Arithmetic.double.mul (RoundToFloat Arithmetic.double (Arithmetic.double.div
        (Arithmetic.double.mul (RoundToFloat Arithmetic.double (Arithmetic.double.div x g)) g)
        g)) g =
      Arithmetic.double.mul (RoundToFloat Arithmetic.double (Arithmetic.double.div x g)) g := by
  obtain ⟨h1, h2⟩ := h
  obtain ⟨m, hm⟩ : ∃ m : ℤ, RoundToFloat Arithmetic.double (Arithmetic.double.div x g) = m :=
    ⟨_, rfl⟩
  rw [hm] at h1 h2 ⊢
  rw [RoundToFloat_double_snapped g m hg h1
    (h2.imp (fun h => by exact_mod_cast h) (fun h => h.1))]

theorem groupedScene_line_X :
    RoundToFloat Arithmetic.double (Arithmetic.double.div 12 10) = 1 := by
  have h1 : Arithmetic.double.div 12 10 = 5404319552844595 / 4503599627370496 := by
    rw [Arithmetic.double_div, roundDouble_eq_of_pos _ 0 5404319552844595 (by norm_num)
      (by norm_num) (by norm_num) (by norm_num) (by norm_num [abs_lt])]
    norm_num
  have h2 : Arithmetic.double.add (5404319552844595 / 4503599627370496) (1 / 2) =
      7656119366529843 / 4503599627370496 := by
    rw [Arithmetic.double_add, roundDouble_eq_of_pos _ 0 7656119366529843 (by norm_num)
      (by norm_num) (by norm_num) (by norm_num) (by norm_num [abs_lt])]
    norm_num
  have h3 : ⌊(7656119366529843 / 4503599627370496 : ℚ)⌋ = 1 := by
    rw [Int.floor_eq_iff]
    norm_num
  unfold RoundToFloat
  rw [h1, h2, h3]
  norm_num

theorem groupedScene_line_Y :
    RoundToFloat Arithmetic.double (Arithmetic.double.div 7 10) = 1 := by
  have h1 : Arithmetic.double.div 7 10 = 3152519739159347 / 4503599627370496 := by
    rw [Arithmetic.double_div, roundDouble_eq_of_pos _ (-1) 6305039478318694 (by norm_num)
      (by norm_num) (by norm_num) (by norm_num) (by norm_num [abs_lt])]
    norm_num
  have h2 : Arithmetic.double.add (3152519739159347 / 4503599627370496) (1 / 2) =
      5404319552844595 / 4503599627370496 := by
    rw [Arithmetic.double_add, roundDouble_eq_of_pos _ 0 5404319552844595 (by norm_num)
      (by norm_num) (by norm_num) (by norm_num) (by norm_num [abs_lt])]
    norm_num
  have h3 : ⌊(5404319552844595 / 4503599627370496 : ℚ)⌋ = 1 := by
    rw [Int.floor_eq_iff]
    norm_num
  unfold RoundToFloat
  rw [h1, h2, h3]
  norm_num

theorem groupedScene_line_Z :
    RoundToFloat Arithmetic.double (Arithmetic.double.div (-5) 10) = 0 := by
  have h1 : Arithmetic.double.div (-5) 10 = -(1 / 2) := by
    rw [Arithmetic.double_div, roundDouble_eq_of_neg _ (-1) (-4503599627370496) (by norm_num)
      (by norm_num) (by norm_num) (by norm_num) (by norm_num [abs_lt])]
    norm_num
  have h2 : Arithmetic.double.add (-(1 / 2)) (1 / 2) = 0 := by
    rw [Arithmetic.double_add]
    norm_num
  unfold RoundToFloat
  rw [h1, h2]
  norm_num

theorem zpow_max_ge : (16 : ℚ) ≤ 2 ^ (1023 : ℤ) :=
  calc (16 : ℚ) = 2 ^ (4 : ℤ) := by norm_num
    _ ≤ 2 ^ (1023 : ℤ) := zpow_le_zpow_right₀ (by norm_num) (by norm_num)

/-- The three coordinates of the point (12, 7, -5) snap in range on the grid
of size 10. -/
theorem groupedScene_in_range :
    SnapsInRange 10 12 ∧ SnapsInRange 10 7 ∧ SnapsInRange 10 (-5) := by
  have hmin := zpow_min_le
  have hmax := zpow_max_ge
  unfold SnapsInRange
  rw [groupedScene_line_X, groupedScene_line_Y, groupedScene_line_Z]
  have h10 : |(1 : ℚ) * 10| = 10 := by norm_num
  rw [h10]
  have hlo : (2 : ℚ) ^ (-1022 : ℤ) ≤ 10 := le_trans hmin (by norm_num)
  have hhi : (10 : ℚ) < 2 ^ (1023 : ℤ) := lt_of_lt_of_le (by norm_num) hmax
  exact ⟨⟨by norm_num, Or.inr ⟨hlo, hhi⟩⟩, ⟨by norm_num, Or.inr ⟨hlo, hhi⟩⟩,
    ⟨by norm_num, Or.inl rfl⟩⟩

/-! ## Grid snap: idempotence -/

/-- C9, the claim as stated fails in the source's arithmetic. On the grid 0.1f
the binary64 point with x = 0x1.8eea1e3066a05p+48 snaps to x = ...592.375, and
that point snaps again to x = ...592.4375: snapping a snapped point moves it. -/
theorem SnapLocationToGrid_idempotent_counterexample :
    SnapLocationToGrid Arithmetic.double fineGrid
        (SnapLocationToGrid Arithmetic.double fineGrid ⟨farCoordinate, 0, 0⟩) ≠
      SnapLocationToGrid Arithmetic.double fineGrid ⟨farCoordinate, 0, 0⟩ := by
  intro h
  have hX := congrArg FVector.X h
  rw [fineGrid_snap_twice, fineGrid_snap_once] at hX
  norm_num at hX

/-- C9, amended. In exact arithmetic SnapLocationToGrid is idempotent for every
grid setting (snap on or off, any grid size). In any arithmetic, the source's
included, it is idempotent whenever grid-snap mode is off, the editor is
absent or the grid size is at most zero, where it returns its input. In
binary64 with grid-snap mode on it is idempotent at every point whose three
coordinates snap in range: to a grid line within 2 ^ 49 steps of the origin,
the snapped value being zero or of a magnitude in the normal range. -/
theorem SnapLocationToGrid_idempotent :
    (∀ (w : World) (p : FVector),
      SnapLocationToGrid Arithmetic.rational w (SnapLocationToGrid Arithmetic.rational w p) =
        SnapLocationToGrid Arithmetic.rational w p) ∧
    (∀ (A : Arithmetic) (w : World) (p : FVector),
      (w.LocationGridSnap_IsChecked = false ∨ w.GEditor = false ∨ w.GridSize ≤ 0) →
      SnapLocationToGrid A w (SnapLocationToGrid A w p) = SnapLocationToGrid A w p) ∧
    (∀ (w : World) (p : FVector),
      w.LocationGridSnap_IsChecked = true → w.GEditor = true → 0 < w.GridSize →
      SnapsInRange w.GridSize p.X → SnapsInRange w.GridSize p.Y →
      SnapsInRange w.GridSize p.Z →
      SnapLocationToGrid Arithmetic.double w (SnapLocationToGrid Arithmetic.double w p) =
        SnapLocationToGrid Arithmetic.double w p) := by
  refine ⟨?_, ?_, ?_⟩
  · intro w p
    by_cases hoff : w.LocationGridSnap_IsChecked = false ∨ w.GEditor = false ∨ w.GridSize ≤ 0
    · rw [SnapLocationToGrid_of_off _ w p hoff, SnapLocationToGrid_of_off _ w p hoff]
    · simp only [not_or, Bool.not_eq_false, not_le] at hoff
      obtain ⟨hs, he, hg⟩ := hoff
      rw [SnapLocationToGrid_of_on _ w p hs he hg, SnapLocationToGrid_of_on _ w _ hs he hg]
      simp only [Arithmetic.rational_mul, Arithmetic.rational_div, snapCoordinate_idem _ _ hg]
  · intro A w p hoff
    rw [SnapLocationToGrid_of_off A w p hoff, SnapLocationToGrid_of_off A w p hoff]
  · intro w p hs he hg hX hY hZ
    rw [SnapLocationToGrid_of_on _ w p hs he hg, SnapLocationToGrid_of_on _ w _ hs he hg]
    simp only [snapCoordinate_double_idem _ _ hg hX, snapCoordinate_double_idem _ _ hg hY,
      snapCoordinate_double_idem _ _ hg hZ]

theorem SnapLocationToGrid_idempotent_witness :
    SnapLocationToGrid Arithmetic.rational groupedScene
        (SnapLocationToGrid Arithmetic.rational groupedScene ⟨12, 7, -5⟩) =
      SnapLocationToGrid Arithmetic.rational groupedScene ⟨12, 7, -5⟩ ∧
    SnapLocationToGrid Arithmetic.double { fineGrid with LocationGridSnap_IsChecked := false }
        (SnapLocationToGrid Arithmetic.double
          { fineGrid with LocationGridSnap_IsChecked := false } ⟨farCoordinate, 0, 0⟩) =
      SnapLocationToGrid Arithmetic.double
        { fineGrid with LocationGridSnap_IsChecked := false } ⟨farCoordinate, 0, 0⟩ ∧
    SnapLocationToGrid Arithmetic.double groupedScene
        (SnapLocationToGrid Arithmetic.double groupedScene ⟨12, 7, -5⟩) =
      SnapLocationToGrid Arithmetic.double groupedScene ⟨12, 7, -5⟩ :=
  ⟨SnapLocationToGrid_idempotent.1 groupedScene ⟨12, 7, -5⟩,
   SnapLocationToGrid_idempotent.2.1 Arithmetic.double
      { fineGrid with LocationGridSnap_IsChecked := false } ⟨farCoordinate, 0, 0⟩ (Or.inl rfl),
   SnapLocationToGrid_idempotent.2.2 groupedScene ⟨12, 7, -5⟩ rfl rfl
      (by norm_num [groupedScene, blankWorld]) groupedScene_in_range.1
      groupedScene_in_range.2.1 groupedScene_in_range.2.2⟩


end TeleportToMouse
